import Mathlib

/-!
Verification development for the move-to-ts translation backend
(`src/ast_to_ts.rs` and `src/shared.rs`).

The development is a shallow embedding: the Rust data model (the slice of the
move-compiler HLIR that these two files consume) becomes Lean inductives, and
each Rust function becomes a Lean function with the same name.  Functions that
take `&mut TsgenWriter` and `&mut Context` become computations in a state
monad `TM` over (writer, context); `Result<_, Diagnostic>` becomes the
`TransRes` result type, whose third alternative `rtPanic` models a Rust
`panic!` / `unreachable!` / failed `unwrap` (a process abort, distinct from
the uniform "Not Translatable" diagnostic).

The `Context`'s append-only accumulators (`tests`, `cmds`, `queries`,
`printer_methods`, `all_shows_iter_tables`, and the visited-module/package
registries) are never read by any code in the two translated files — they are
only pushed to, for consumption by downstream generators outside the core.
They are therefore modelled as an output log (`List Artifact`) produced by
each computation rather than as readable state.  The `BTreeSet<String>`
the import sets, which are both written and rendered, are modelled as
`Finset String` with iteration modelled as `Finset.sort (· ≤ ·)` (a
`BTreeSet` iterates its elements in sorted order without duplicates).

Code of the repository that is not under `src/` (`tsgen_writer.rs`,
`ast_exp.rs`, `ast_tests.rs`, `utils.rs`) is modelled from the spec; every
such definition carries a doc comment starting `Modelled from the spec:`.
-/

namespace MoveToTs

/-- Source location (`move_ir_types::location::Loc`), identified abstractly. -/
abbrev Loc := Nat

/-- A `move_compiler::shared::Name`: a source symbol with a location.
`Spanned` equality in the move compiler ignores the location, so all
comparisons in the embedded code compare only `sym`. -/
structure Name where
  loc : Loc
  sym : String
deriving Repr, DecidableEq

/-- `move_compiler::expansion::ast::Address`.  The numerical payload is the
numeric value of the `NumericalAddress`; the optional `Name` is kept as its
symbol (its location is never used by the translated code). -/
inductive Address where
  | Numerical (name : Option String) (num : Nat)
  | NamedUnassigned (name : String)
deriving Repr, DecidableEq

/-- The value part of a `ModuleIdent`: an address and a module name. -/
structure ModuleIdent_ where
  address : Address
  module : String
deriving Repr, DecidableEq

/-- `ModuleIdent = Spanned<ModuleIdent_>`. -/
structure ModuleIdent where
  loc : Loc
  value : ModuleIdent_
deriving Repr, DecidableEq

/-- Rust `Address` equality (`PartialEq`): as the comment in
`is_same_package` records, it ignores the symbolic name of a `Numerical`
address and compares only the numeric value. -/
def addressEq : Address → Address → Bool
  | .Numerical _ n1, .Numerical _ n2 => n1 == n2
  | .NamedUnassigned a, .NamedUnassigned b => a == b
  | _, _ => false

/-- Rust `ModuleIdent_` equality: component-wise, with `addressEq` on the
address (and plain equality on the module symbol). -/
def midentValueEq (a b : ModuleIdent_) : Bool :=
  addressEq a.address b.address && a.module == b.module

/-- `naming::ast::BuiltinTypeName_`. -/
inductive BuiltinTypeName_ where
  | Bool | U8 | U64 | U128 | Address | Signer | Vector
deriving Repr, DecidableEq

/-- `naming::ast::TParam` (only the field the translated code reads). -/
structure TParam where
  user_specified_name : Name
deriving Repr, DecidableEq

/-- `naming::ast::StructTypeParameter`. -/
structure StructTypeParameter where
  is_phantom : Bool
  param : TParam
deriving Repr, DecidableEq

mutual
/-- `hlir::ast::BaseType = Spanned<BaseType_>`. -/
inductive BaseType where
  | mk (loc : Loc) (value : BaseType_)

/-- `hlir::ast::BaseType_`. -/
inductive BaseType_ where
  | Param (tp : TParam)
  | Apply (typename : TypeName) (targs : List BaseType)
  | UnresolvedError
  | Unreachable

/-- `hlir::ast::TypeName = Spanned<TypeName_>`. -/
inductive TypeName where
  | mk (loc : Loc) (value : TypeName_)

/-- `hlir::ast::TypeName_`; a struct name is a `Name` (its wrapper struct
`StructName` is a transparent newtype). -/
inductive TypeName_ where
  | Builtin (b : BuiltinTypeName_)
  | ModuleType (mi : ModuleIdent) (sname : Name)
end

def BaseType.loc : BaseType → Loc
  | .mk l _ => l

def BaseType.value : BaseType → BaseType_
  | .mk _ v => v

def TypeName.value : TypeName → TypeName_
  | .mk _ v => v

/-- `hlir::ast::SingleType_`. -/
inductive SingleType_ where
  | Base (b : BaseType)
  | Ref (isMut : Bool) (b : BaseType)

/-- `hlir::ast::SingleType = Spanned<SingleType_>`. -/
structure SingleType where
  loc : Loc
  value : SingleType_

/-- `hlir::ast::Type_` (named `TypeT` because `Type` is a Lean sort). -/
inductive Type_ where
  | Unit
  | Single (s : SingleType)
  | Multiple (ts : List SingleType)

/-- `hlir::ast::Type = Spanned<Type_>`. -/
structure TypeT where
  loc : Loc
  value : Type_

/-- `hlir::ast::BuiltinFunction_` (only the alternative the translated code
inspects; every other builtin is kept abstract by name). -/
inductive BuiltinFunction_ where
  | MoveTo (ty : BaseType)
  | OtherBuiltin (nm : String)

/-- `hlir::ast::BuiltinFunction = Spanned<BuiltinFunction_>`. -/
structure BuiltinFunction where
  loc : Loc
  value : BuiltinFunction_

/-- The shape of `hlir::ast::UnannotatedExp_` as far as the two translated
files inspect it: they pattern-match on `Unit`, `Builtin`, `Borrow` and
`Dereference` and treat every other expression opaquely.  The expression
translator itself lives in `ast_exp.rs`, which is not part of the translated
sources, so each constructor carries the text that translator renders for it
(see `Exp.termStr`). -/
inductive UnannotatedExp_ where
  | UnitE (txt : String)
  | Builtin (f : BuiltinFunction) (txt : String)
  | Borrow (txt : String)
  | Dereference (txt : String)
  | Other (txt : String)

/-- `hlir::ast::Exp`: the translated code accesses `exp.exp.value` (the
unannotated expression) and `exp.exp.loc`. -/
structure Exp where
  loc : Loc
  exp : UnannotatedExp_

mutual
/-- `hlir::ast::Statement = Spanned<Statement_>`. -/
inductive Statement where
  | mk (loc : Loc) (value : Statement_)

/-- `hlir::ast::Statement_`.  A `Block` is a sequence of statements; the
`While` condition is a pair (pre-evaluation block, condition expression). -/
inductive Statement_ where
  | Command (cmd : Command)
  | IfElse (cond : Exp) (if_block : List Statement) (else_block : List Statement)
  | While (pre_block : List Statement) (cond : Exp) (block : List Statement)
  | Loop (has_break : Bool) (block : List Statement)

/-- `hlir::ast::Command = Spanned<Command_>`. -/
inductive Command where
  | mk (loc : Loc) (value : Command_)

/-- `hlir::ast::Command_`; the catch-all arm of the Rust `match` (jumps and
labels) is represented by `Jump`. -/
inductive Command_ where
  | Assign (lvalues : List LValue) (rhs : Exp)
  | Mutate (lhs : Exp) (rhs : Exp)
  | Abort (e : Exp)
  | Return (from_user : Bool) (exp : Exp)
  | Break
  | Continue
  | IgnoreAndPop (pop_num : Nat) (exp : Exp)
  | Jump (lbl : String)

/-- `hlir::ast::LValue = Spanned<LValue_>`. -/
inductive LValue where
  | mk (loc : Loc) (value : LValue_)

/-- `hlir::ast::LValue_`.  A `Var` is kept as its display string (the
translated code only ever calls `.to_string()` on it); `Unpack` fields pair a
field name with a nested l-value. -/
inductive LValue_ where
  | Ignore
  | Var (v : String) (ty : SingleType)
  | Unpack (s : Name) (tys : List BaseType) (fields : List (Name × LValue))
end

/-- A `hlir::ast::Block` (a `VecDeque<Statement>`). -/
abbrev Block := List Statement

def Statement.loc : Statement → Loc
  | .mk l _ => l

def Statement.value : Statement → Statement_
  | .mk _ v => v

def Command.loc : Command → Loc
  | .mk l _ => l

def Command.value : Command → Command_
  | .mk _ v => v

def LValue.value : LValue → LValue_
  | .mk _ v => v

/-- `hlir::ast::FunctionSignature`.  A parameter `Var` is kept as its display
string. -/
structure FunctionSignature where
  type_parameters : List TParam
  parameters : List (String × SingleType)
  return_type : TypeT

/-- `hlir::ast::FunctionBody_`. -/
inductive FunctionBody_ where
  | Native
  | Defined (locals : List (String × SingleType)) (body : Block)

/-- `hlir::ast::FunctionBody = Spanned<FunctionBody_>`. -/
structure FunctionBody where
  loc : Loc
  value : FunctionBody_

mutual
/-- `expansion::ast::Attribute = Spanned<Attribute_>`. -/
inductive Attribute where
  | mk (loc : Loc) (value : Attribute_)

/-- `expansion::ast::Attribute_`.  The inner map of a `Parameterized`
attribute is keyed by the attribute name (iterated in key order by
`key_cloned_iter`); it is modelled as an association list in iteration
order. -/
inductive Attribute_ where
  | Name (n : Name)
  | Assigned (n : Name) (v : AttributeValue)
  | Parameterized (n : Name) (inner : List (String × Attribute))

/-- `expansion::ast::AttributeValue = Spanned<AttributeValue_>`. -/
inductive AttributeValue where
  | mk (loc : Loc) (value : AttributeValue_)

/-- `expansion::ast::AttributeValue_` (only the `Value` alternative is
inspected). -/
inductive AttributeValue_ where
  | Value (v : EValue)
  | OtherAV

/-- `expansion::ast::Value = Spanned<Value_>` (as `EV` in `shared.rs`). -/
inductive EValue where
  | mk (loc : Loc) (value : EValue_)

/-- `expansion::ast::Value_`: only `Bytearray` is inspected; bytes are
natural numbers `< 256`. -/
inductive EValue_ where
  | Bytearray (bytes : List Nat)
  | OtherEV
end

/-- Attribute maps (`expansion::ast::Attributes`), keyed by attribute name,
iterated in key order by `key_cloned_iter`; modelled as an association list
in iteration order. -/
abbrev Attributes := List (String × Attribute)

/-- `hlir::ast::Function` (the fields the translated code reads).  `entry` is
`Option<Loc>` in Rust and only ever tested with `is_some`/`is_none`, so it is
modelled as a `Bool`. -/
structure Function where
  attributes : Attributes
  entry : Bool
  signature : FunctionSignature
  body : FunctionBody

/-- `hlir::ast::Constant`: the translated code destructures
`value = (locals, block)` and drops the locals. -/
structure Constant where
  loc : Loc
  signature : BaseType
  value : Block

/-- `parser::ast::Ability_`. -/
inductive Ability_ where
  | Copy | Drop | Store | Key
deriving Repr, DecidableEq

/-- `hlir::ast::StructFields`. -/
inductive StructFields where
  | Native (loc : Loc)
  | Defined (fields : List (Name × BaseType))

/-- `hlir::ast::StructDefinition` (the fields the translated code reads). -/
structure StructDefinition where
  attributes : Attributes
  abilities : List Ability_
  type_parameters : List StructTypeParameter
  fields : StructFields

/-- `hlir::ast::ModuleDefinition` (the fields the translated code reads).
The three declaration maps are `UniqueMap`s iterated in key order by
`key_cloned_iter`; they are modelled as association lists in iteration
order. -/
structure ModuleDefinition where
  package_name : Option String
  structs : List (Name × StructDefinition)
  constants : List (Name × Constant)
  functions : List (Name × Function)

/-- `hlir::ast::Program` (the field the translated code reads): the modules,
keyed by `ModuleIdent` (looked up with the location-insensitive,
address-name-insensitive `ModuleIdent` equality). -/
structure Program where
  modules : List (ModuleIdent × ModuleDefinition)

/-- `MoveToTsOptions` (the CLI options record); the two path fields are
filesystem configuration never read by the translated core and are
omitted. -/
structure MoveToTsOptions where
  test : Bool
  cli : Bool
  ui : Bool
  asynchronous : Bool
  package_json_name : String
deriving Repr, DecidableEq

/-! ## Results, diagnostics and the translation monad -/

/-- The uniform "Not Translatable" diagnostic (`shared.rs`; the `derr!` macro
builds it from a primary location/message and optional secondary related
locations). -/
structure Diag where
  loc : Loc
  msg : String
  secondary : List (Loc × String)
deriving Repr, DecidableEq

/-- Outcome of a piece of translated Rust: success, the uniform diagnostic
(Rust `Err(Diagnostic)`), or a Rust process abort (`panic!`, `unreachable!`,
a failed `unwrap` or assertion), which is *not* a diagnostic. -/
inductive TransRes (α : Type) where
  | ok (a : α)
  | err (d : Diag)
  | rtPanic (msg : String)
deriving Repr, DecidableEq

def TransRes.isOk {α : Type} : TransRes α → Bool
  | .ok _ => true
  | _ => false

def TransRes.isErr {α : Type} : TransRes α → Bool
  | .err _ => true
  | _ => false

def TransRes.isPanic {α : Type} : TransRes α → Bool
  | .rtPanic _ => true
  | _ => false

def TransRes.bind {α β : Type} : TransRes α → (α → TransRes β) → TransRes β
  | .ok a, f => f a
  | .err d, _ => .err d
  | .rtPanic m, _ => .rtPanic m

instance : Monad TransRes where
  pure := .ok
  bind := TransRes.bind

/-- Map a `TransRes`-returning function over a list, failing fast (the shape
`comma_term` produces before joining). -/
def mapTR {α β : Type} (f : α → TransRes β) : List α → TransRes (List β)
  | [] => .ok []
  | x :: rest => do
    let y ← f x
    let ys ← mapTR f rest
    pure (y :: ys)

/-- One record pushed into the `Context`'s append-only accumulators.  The
accumulators are never read back by the translated files, so each push is
modelled as an emission (see the module docstring). -/
inductive Artifact where
  | testRecord (fname : Name)
  | cmdRecord (mi : ModuleIdent) (fname : Name) (f : Function) (desc : Option String)
  | queryRecord (mi : ModuleIdent) (fname : Name) (f : Function)
  | printerRecord (mi : ModuleIdent) (sname : Name) (sdef : StructDefinition)
      (fname : Name) (sig : FunctionSignature)
  | showIterRecord (mi : ModuleIdent) (sname : Name) (sdef : StructDefinition) (field : Name)

/-- Modelled from the spec: `TsgenWriter` (`tsgen_writer.rs`, not under
`src/`) — "an indentation-tracking text accumulator with scoped-block
helpers".  `lines` are the completed output lines, `cur` the partial current
line, `indent` the current indentation in spaces. -/
structure TsgenWriter where
  lines : List String
  cur : String
  indent : Nat
deriving Repr, DecidableEq

/-- A fresh writer (`TsgenWriter::new`). -/
def TsgenWriter.new : TsgenWriter := ⟨[], "", 0⟩

/-- Indentation padding of `n` spaces. -/
def pad (n : Nat) : String := String.mk (List.replicate n ' ')

/-- Modelled from the spec: `write` appends text to the current line. -/
def TsgenWriter.writeRaw (w : TsgenWriter) (s : String) : TsgenWriter :=
  { w with cur := w.cur ++ s }

/-- Modelled from the spec: `writeln` completes the current line (with
indentation) using the given text. -/
def TsgenWriter.writelnRaw (w : TsgenWriter) (s : String) : TsgenWriter :=
  { lines := w.lines ++ [pad w.indent ++ w.cur ++ s], cur := "", indent := w.indent }

/-- Modelled from the spec: `new_line` flushes the current line (a blank line
when nothing is pending). -/
def TsgenWriter.newLineRaw (w : TsgenWriter) : TsgenWriter :=
  { lines := w.lines ++ [if w.cur = "" then "" else pad w.indent ++ w.cur],
    cur := "", indent := w.indent }

/-- The mutable state threaded through translation: the writer and the
readable/writable part of the `Context` (current module, current function
signature, and the two per-module import sets; `program` and `config` are
read-only for the whole run and live in `Env`). -/
structure Ctx where
  current_module : Option ModuleIdent
  current_function_signature : Option FunctionSignature
  same_package_imports : Finset String
  package_imports : Finset String

/-- The read-only environment of a run: the program tree and the CLI
options. -/
structure Env where
  program : Program
  config : MoveToTsOptions

structure TState where
  w : TsgenWriter
  c : Ctx

/-- The translation monad: a computation over the writer/context state that
may fail with the uniform diagnostic or a Rust panic, and that logs pushes to
the `Context`'s append-only accumulators. -/
def TM (α : Type) : Type := Env → TState → TransRes α × TState × List Artifact

def TM.pure_ {α : Type} (a : α) : TM α := fun _ s => (.ok a, s, [])

def TM.bind_ {α β : Type} (x : TM α) (f : α → TM β) : TM β := fun env s =>
  match x env s with
  | (.ok a, s1, l1) =>
    match f a env s1 with
    | (r, s2, l2) => (r, s2, l1 ++ l2)
  | (.err d, s1, l1) => (.err d, s1, l1)
  | (.rtPanic m, s1, l1) => (.rtPanic m, s1, l1)

instance : Monad TM where
  pure := TM.pure_
  bind := TM.bind_

/-- The `derr!` macro with a single primary (location, message). -/
def derr {α : Type} (loc : Loc) (msg : String) : TM α :=
  fun _ s => (.err ⟨loc, msg, []⟩, s, [])

/-- A Rust process abort inside a translation computation. -/
def rtPanicM {α : Type} (msg : String) : TM α :=
  fun _ s => (.rtPanic msg, s, [])

/-- Lift a pure `TransRes` into the monad. -/
def liftTR {α : Type} (r : TransRes α) : TM α := fun _ s => (r, s, [])

def readEnv : TM Env := fun env s => (.ok env, s, [])

def getCtx : TM Ctx := fun _ s => (.ok s.c, s, [])

def modifyCtx (f : Ctx → Ctx) : TM Unit := fun _ s => (.ok (), { s with c := f s.c }, [])

def emitArtifact (a : Artifact) : TM Unit := fun _ s => (.ok (), s, [a])

def wWrite (str : String) : TM Unit := fun _ s => (.ok (), { s with w := s.w.writeRaw str }, [])

def wWriteln (str : String) : TM Unit := fun _ s => (.ok (), { s with w := s.w.writelnRaw str }, [])

def wNewLine : TM Unit := fun _ s => (.ok (), { s with w := s.w.newLineRaw }, [])

/-- `increase_indent` (modelled as two spaces per level). -/
def wIncIndent : TM Unit := fun _ s => (.ok (), { s with w := { s.w with indent := s.w.indent + 2 } }, [])

def wDecIndent : TM Unit := fun _ s => (.ok (), { s with w := { s.w with indent := s.w.indent - 2 } }, [])

/-- Modelled from the spec: `TsgenWriter::short_block` — open a scoped block,
run the body one level deeper, close the block. -/
def shortBlock (body : TM Unit) : TM Unit := do
  wWriteln "\x7b"
  wIncIndent
  body
  wDecIndent
  wWriteln "\x7d"

/-- Modelled from the spec: `TsgenWriter::indent(n, f)` — run `f` with the
indentation temporarily increased by `n` spaces. -/
def wIndented (n : Nat) (body : TM Unit) : TM Unit := do
  fun _ s => (.ok (), { s with w := { s.w with indent := s.w.indent + n } }, [])
  body
  fun _ s => (.ok (), { s with w := { s.w with indent := s.w.indent - n } }, [])

/-- Modelled from the spec: `TsgenWriter::list(items, sep, f)` — emit each
item with `f`, writing `sep` between consecutive items. -/
def wList {α : Type} (sep : String) (f : α → TM Bool) : List α → TM Unit
  | [] => pure ()
  | [x] => do
    let _ ← f x
    pure ()
  | x :: y :: rest => do
    let _ ← f x
    wWrite sep
    wList sep f (y :: rest)

/-- Fetch `c.current_module.unwrap()` (a Rust panic when unset). -/
def currentModuleM : TM ModuleIdent := fun _ s =>
  match s.c.current_module with
  | some m => (.ok m, s, [])
  | none => (.rtPanic "called unwrap on a None current_module", s, [])

/-! ## Modelled utilities (`utils.rs`, `ast_tests.rs`, not under `src/`) -/

/-- Modelled from the spec: `utils::capitalize` — capitalize the first
character (used for package/module qualifiers). -/
def capitalize (s : String) : String :=
  match s.data with
  | [] => ""
  | ch :: rest => String.mk (ch.toUpper :: rest)

/-- Modelled from the spec: `utils::rename` maps a source identifier to a
target identifier (renaming reserved words).  The renaming table is
irrelevant to every verified claim, so it is modelled as the identity. -/
def rename (s : String) : String := s

/-- Modelled from the spec: `ast_tests::check_test` inspects the function's
attributes for the unit-test marker, records a test descriptor in the
`Context`, and reports whether this is a test function. -/
def check_test (fname : Name) (f : Function) : TM Bool :=
  if f.attributes.any (fun p => p.1 == "test") then do
    emitArtifact (.testRecord fname)
    pure true
  else
    pure false

/-- Modelled from the spec: hand-written helper declarations appended to the
well-known table module (`utils::get_table_helper_decl`). -/
def get_table_helper_decl : String := "// hand-written Table helper declarations"

/-- Modelled from the spec: hand-written helper declarations appended to the
well-known iterable-table module (`utils::get_iterable_table_helper_decl`). -/
def get_iterable_table_helper_decl : String := "// hand-written IterableTable helper declarations"

/-! ## `shared.rs` -/

/-- `shared::quote`. -/
def quote (s : String) : String := "\"" ++ s ++ "\""

/-- The `0x…` hexadecimal literal of a numeric address
(`NumericalAddress::to_hex_literal` trims leading zeros). -/
def toHexLiteral (n : Nat) : String := "0x" ++ String.mk (Nat.toDigits 16 n)

/-- `shared::format_address` — prefers the symbolic name when present. -/
def format_address : Address → String
  | .Numerical (some name) _ => name
  | .Numerical none num => "X" ++ toHexLiteral num
  | .NamedUnassigned name => name

/-- `shared::format_address_hex`. -/
def format_address_hex : Address → String
  | .Numerical _ num => toHexLiteral num
  | .NamedUnassigned _ => ""

/-- `shared::is_same_package` — unlike the `Address` `PartialEq` (which
ignores it), this compares the symbolic name of numerical addresses as
well. -/
def is_same_package (a1 a2 : Address) : Bool :=
  match a1 with
  | .Numerical name num =>
    match a2 with
    | .Numerical name2 num2 => name == name2 && num == num2
    | _ => false
  | .NamedUnassigned _ => addressEq a1 a2

/-- `shared::is_same_module`. -/
def is_same_module (mi1 mi2 : ModuleIdent) : Bool :=
  midentValueEq mi1.value mi2.value

/-- `Context::reset_for_module`: set the current module and clear the
per-module state (import sets and the tests accumulator; the additive
visited-module/package registries are append-only and never read by the
translated files, so their insertions are not represented in `Ctx`). -/
def reset_for_module (c : Ctx) (mname : ModuleIdent) : Ctx :=
  { current_module := some mname,
    current_function_signature := c.current_function_signature,
    same_package_imports := ∅,
    package_imports := ∅ }

/-- `Context::get_tparam_index` — position of a type parameter in the current
function signature's type-parameter list. -/
def get_tparam_index (c : Ctx) (tparam : TParam) : Option Nat :=
  match c.current_function_signature with
  | none => none
  | some sig =>
    sig.type_parameters.findIdx?
      (fun tp => tp.user_specified_name.sym == tparam.user_specified_name.sym)

/-- `Context::is_async`. -/
def isAsync (env : Env) : Bool := env.config.asynchronous

/-- `shared::format_function_name`. -/
def format_function_name (fname : String) (is_async : Bool) : String :=
  (if is_async then "await " else "") ++ fname ++ "_"

/-- `shared::format_qualified_name`: same module → bare name; same package →
module-qualified, recording a same-package import; otherwise fully qualified,
recording a cross-package import.  (`is_current_module`/`is_current_package`
unwrap the current module — a Rust panic when unset.) -/
def format_qualified_name (mident : ModuleIdent) (nameDisp : String) : TM String := do
  let name := rename nameDisp
  let cur ← currentModuleM
  if midentValueEq cur.value mident.value then
    pure name
  else if is_same_package cur.value.address mident.value.address then do
    modifyCtx (fun c =>
      { c with same_package_imports := insert mident.value.module c.same_package_imports })
    pure (capitalize mident.value.module ++ "." ++ name)
  else do
    let package_name := format_address mident.value.address
    modifyCtx (fun c =>
      { c with package_imports := insert package_name c.package_imports })
    pure (capitalize package_name ++ "." ++ capitalize mident.value.module ++ "." ++ name)

/-- `shared::ts_format_numerical_address`. -/
def ts_format_numerical_address (num : Nat) : TransRes String :=
  .ok ("new HexString(" ++ quote (toHexLiteral num) ++ ")")

/-- `shared::ts_format_address_as_literal`. -/
def ts_format_address_as_literal (addr : Address) (loc : Loc) : TransRes String :=
  match addr with
  | .Numerical _ num => ts_format_numerical_address num
  | .NamedUnassigned name => .err ⟨loc, "Unassigned address: " ++ name, []⟩

mutual
/-- `shared::base_type_to_typetag_builder` — declaration-time ("builder")
type-tag of a struct field type; a type-parameter reference resolves to its
position in the owning struct's type parameters (a failed lookup is an
`unwrap` panic), a wrong-arity vector is a failed assertion.  The recursion
over a struct application's argument list (`comma_term` in the source) is the
mutual helper `typetag_builder_args`. -/
def base_type_to_typetag_builder (tparams : List StructTypeParameter) :
    BaseType → TransRes String
  | .mk loc v =>
    match v with
    | .Param tp =>
      match tparams.findIdx?
          (fun tp2 => tp2.param.user_specified_name.sym == tp.user_specified_name.sym) with
      | some idx => .ok ("new $.TypeParamIdx(" ++ toString idx ++ ")")
      | none => .rtPanic "called unwrap on a None: struct type parameter not found"
    | .Apply typename ss =>
      match typename.value with
      | .Builtin b =>
        match b with
        | .Vector =>
          match ss with
          | [inner] => do
            let innerBuilder ← base_type_to_typetag_builder tparams inner
            pure ("new VectorTag(" ++ innerBuilder ++ ")")
          | _ => .rtPanic "assertion failed: ss.len() == 1"
        | .Bool => .ok "AtomicTypeTag.Bool"
        | .U8 => .ok "AtomicTypeTag.U8"
        | .U64 => .ok "AtomicTypeTag.U64"
        | .U128 => .ok "AtomicTypeTag.U128"
        | .Address => .ok "AtomicTypeTag.Address"
        | .Signer => .ok "AtomicTypeTag.Signer"
      | .ModuleType mident sname => do
        let address := format_address_hex mident.value.address
        let modname := mident.value.module
        let parts ← typetag_builder_args tparams ss
        let tparamsStr := "[" ++ String.intercalate ", " parts ++ "]"
        pure ("new StructTag(new HexString(" ++ quote address ++ "), " ++ quote modname
          ++ ", " ++ quote sname.sym ++ ", " ++ tparamsStr ++ ")")
    | .UnresolvedError => .err ⟨loc, "Received Unresolved Type", []⟩
    | .Unreachable => .err ⟨loc, "Received Unresolved Type", []⟩

/-- Argument-list recursion of `base_type_to_typetag_builder`. -/
def typetag_builder_args (tparams : List StructTypeParameter) :
    List BaseType → TransRes (List String)
  | [] => .ok []
  | t :: rest => do
    let s ← base_type_to_typetag_builder tparams t
    let ss ← typetag_builder_args tparams rest
    pure (s :: ss)
end

mutual
/-- `shared::base_type_to_typetag` — call-time ("runtime") type tag; a
type-parameter reference resolves through `get_tparam_index` against the
current function signature (a failed lookup is an `unwrap` panic).  The Rust
function takes `&mut Context` but only reads it, so it is embedded as a pure
function of the context. -/
def base_type_to_typetag (c : Ctx) : BaseType → TransRes String
  | .mk loc v =>
    match v with
    | .Param tp =>
      match get_tparam_index c tp with
      | some idx => .ok ("$p[" ++ toString idx ++ "]")
      | none => .rtPanic "called unwrap on a None: function type parameter not found"
    | .Apply typename ss =>
      match typename.value with
      | .Builtin b =>
        match b with
        | .Vector =>
          match ss with
          | [inner] => do
            let innerBuilder ← base_type_to_typetag c inner
            pure ("new VectorTag(" ++ innerBuilder ++ ")")
          | _ => .rtPanic "assertion failed: ss.len() == 1"
        | .Bool => .ok "AtomicTypeTag.Bool"
        | .U8 => .ok "AtomicTypeTag.U8"
        | .U64 => .ok "AtomicTypeTag.U64"
        | .U128 => .ok "AtomicTypeTag.U128"
        | .Address => .ok "AtomicTypeTag.Address"
        | .Signer => .ok "AtomicTypeTag.Signer"
      | .ModuleType mident sname => do
        let address := format_address_hex mident.value.address
        let modname := mident.value.module
        let parts ← typetag_args c ss
        let tparamsStr := "[" ++ String.intercalate ", " parts ++ "]"
        pure ("new StructTag(new HexString(" ++ quote address ++ "), " ++ quote modname
          ++ ", " ++ quote sname.sym ++ ", " ++ tparamsStr ++ ")")
    | .UnresolvedError => .err ⟨loc, "Received Unresolved Type", []⟩
    | .Unreachable => .err ⟨loc, "Received Unresolved Type", []⟩

/-- Argument-list recursion of `base_type_to_typetag`. -/
def typetag_args (c : Ctx) : List BaseType → TransRes (List String)
  | [] => .ok []
  | t :: rest => do
    let s ← base_type_to_typetag c t
    let ss ← typetag_args c rest
    pure (s :: ss)
end

/-- `shared::type_to_typetag`. -/
def type_to_typetag (c : Ctx) (ty : TypeT) : TransRes String :=
  match ty.value with
  | .Unit => .err ⟨ty.loc, "Cannot construct Unit type", []⟩
  | .Single single_ty =>
    match single_ty.value with
    | .Ref _ _ => .err ⟨ty.loc, "Cannot construct typetag for Ref type", []⟩
    | .Base base_ty => base_type_to_typetag c base_ty
  | .Multiple _ => .err ⟨ty.loc, "Cannot construct typeTag for tuples", []⟩

/-- Modelled UTF-8 validation/decoding as performed by Rust
`String::from_utf8`: rejects invalid lead/continuation bytes, overlong
encodings, surrogates, and out-of-range code points. -/
def utf8DecodeAux : List Nat → Option (List Char)
  | [] => some []
  | b :: rest =>
    if b < 0x80 then
      (utf8DecodeAux rest).map (fun cs => Char.ofNat b :: cs)
    else if b < 0xC2 then
      none
    else if b < 0xE0 then
      match rest with
      | b1 :: rest1 =>
        if 0x80 ≤ b1 && b1 < 0xC0 then
          (utf8DecodeAux rest1).map
            (fun cs => Char.ofNat ((b - 0xC0) * 64 + (b1 - 0x80)) :: cs)
        else none
      | [] => none
    else if b < 0xF0 then
      match rest with
      | b1 :: b2 :: rest2 =>
        let lo1 := if b == 0xE0 then 0xA0 else 0x80
        let hi1 := if b == 0xED then 0xA0 else 0xC0
        if lo1 ≤ b1 && b1 < hi1 && 0x80 ≤ b2 && b2 < 0xC0 then
          (utf8DecodeAux rest2).map
            (fun cs =>
              Char.ofNat ((b - 0xE0) * 4096 + (b1 - 0x80) * 64 + (b2 - 0x80)) :: cs)
        else none
      | _ => none
    else if b < 0xF5 then
      match rest with
      | b1 :: b2 :: b3 :: rest3 =>
        let lo1 := if b == 0xF0 then 0x90 else 0x80
        let hi1 := if b == 0xF4 then 0x90 else 0xC0
        if lo1 ≤ b1 && b1 < hi1 && 0x80 ≤ b2 && b2 < 0xC0 && 0x80 ≤ b3 && b3 < 0xC0 then
          (utf8DecodeAux rest3).map
            (fun cs =>
              Char.ofNat ((b - 0xF0) * 262144 + (b1 - 0x80) * 4096
                + (b2 - 0x80) * 64 + (b3 - 0x80)) :: cs)
        else none
      | _ => none
    else
      none

/-- Rust `String::from_utf8` on a byte array, as an `Option`. -/
def utf8DecodeBytes (bytes : List Nat) : Option String :=
  (utf8DecodeAux bytes).map String.mk

/-- `shared::extract_attribute_value_string`: a byte-string attribute value
decoded as UTF-8, with invalid UTF-8 replaced by the empty string
(`unwrap_or`); any other attribute shape yields `None`. -/
def extract_attribute_value_string (attr : Attribute) : Option String :=
  match attr with
  | .mk _ (.Assigned _ (.mk _ (.Value (.mk _ (.Bytearray bytes))))) =>
    some ((utf8DecodeBytes bytes).getD "")
  | _ => none

/-! ## Modelled expression/type printers (`ast_exp.rs`, not under `src/`) -/

/-- Modelled from the spec: the rendered target text of an expression — the
expression translator lives in `ast_exp.rs` (not under `src/`), so the text
it renders for each expression is carried on the node itself. -/
def Exp.term : Exp → String
  | ⟨_, .UnitE txt⟩ => txt
  | ⟨_, .Builtin _ txt⟩ => txt
  | ⟨_, .Borrow txt⟩ => txt
  | ⟨_, .Dereference txt⟩ => txt
  | ⟨_, .Other txt⟩ => txt

mutual
/-- Modelled from the spec (4.4, "scoped multi-name destructuring
declaration"): rendering of one l-value pattern by the expression printer. -/
def lvalue_term : LValue → String
  | .mk _ .Ignore => "_"
  | .mk _ (.Var v _) => rename v
  | .mk _ (.Unpack _ _ fields) => "\x7b " ++ lvalue_fields_term fields ++ " \x7d"

/-- Field-list recursion of `lvalue_term`. -/
def lvalue_fields_term : List (Name × LValue) → String
  | [] => ""
  | [(f, lv)] => f.sym ++ ": " ++ lvalue_term lv
  | (f, lv) :: rest => f.sym ++ ": " ++ lvalue_term lv ++ ", " ++ lvalue_fields_term rest
end

/-- Modelled from the spec: the l-value list printer used by assignments. -/
def lvalue_list_write_ts (lvalues : List LValue) : TM Unit :=
  match lvalues with
  | [lv] => wWrite (lvalue_term lv)
  | _ => wWrite ("[" ++ String.intercalate ", " (lvalues.map lvalue_term) ++ "]")

/-- Modelled from the spec (4.4, "bind, no names bound"): true when the
l-value list binds no name. -/
def is_empty_lvalue_list (lvalues : List LValue) : Bool :=
  lvalues.all (fun lv => match lv with | .mk _ .Ignore => true | _ => false)

/-- Modelled from the spec: the printed target-language type of a builtin
type name (`AstTsPrinter for BuiltinTypeName_` in `ast_exp.rs`). -/
def builtin_type_name_term : BuiltinTypeName_ → String
  | .Bool => "boolean"
  | .U8 => "U8"
  | .U64 => "U64"
  | .U128 => "U128"
  | .Address => "HexString"
  | .Signer => "HexString"
  | .Vector => "vector"

/-- Modelled from the spec (4.2): the printed target-language type of a base
type — type parameters by name, builtins by their fixed names, vectors as
array types, struct applications as the qualified class name (recording
the import through `format_qualified_name`), unresolved types as errors. -/
def base_type_to_tstype : BaseType → TM String
  | .mk _ (.Param tp) => pure (rename tp.user_specified_name.sym)
  | .mk loc (.Apply tn targs) =>
    match tn, targs with
    | .mk _ (.Builtin .Vector), [inner] => do
      let s ← base_type_to_tstype inner
      pure (s ++ "[]")
    | .mk _ (.Builtin .Vector), _ => derr loc "vector type application with wrong arity"
    | .mk _ (.Builtin b), _ => pure (builtin_type_name_term b)
    | .mk _ (.ModuleType mident sname), _ => format_qualified_name mident sname.sym
  | .mk loc .UnresolvedError => derr loc "Received Unresolved Type"
  | .mk loc .Unreachable => derr loc "Received Unresolved Type"

/-- Modelled from the spec: the printed type of a single type (references
print as their base type; the target language has no reference types). -/
def single_type_to_tstype (ty : SingleType) : TM String :=
  match ty.value with
  | .Base b => base_type_to_tstype b
  | .Ref _ b => base_type_to_tstype b

/-- Modelled from the spec: the printed type of a full type (unit is `void`,
tuples are array types). -/
def type_to_tstype (ty : TypeT) : TM String :=
  match ty.value with
  | .Unit => pure "void"
  | .Single s => single_type_to_tstype s
  | .Multiple ts => do
    let parts ← ts.mapM single_type_to_tstype
    pure ("[" ++ String.intercalate ", " parts ++ "]")

/-! ## `ast_to_ts.rs` — helpers -/

/-- `ast_to_ts::is_exp_unit`. -/
def is_exp_unit (e : Exp) : Bool :=
  match e.exp with
  | .UnitE _ => true
  | _ => false

/-- `ast_to_ts::is_base_type_signer`. -/
def is_base_type_signer (ty : BaseType) : Bool :=
  match ty.value with
  | .Apply typename _ =>
    match typename.value with
    | .Builtin builtin => builtin == .Signer
    | _ => false
  | _ => false

/-- `ast_to_ts::is_type_signer` — `signer` or `&signer`. -/
def is_type_signer (ty : SingleType) : Bool :=
  match ty.value with
  | .Base base_ty => is_base_type_signer base_ty
  | .Ref _ base_ty => is_base_type_signer base_ty

/-- `ast_to_ts::ts_constant_type` — only builtin types are allowed as
top-level constants; any non-builtin shape hits `unreachable!` (a Rust
panic carrying no diagnostic), and a zero-argument vector application is an
out-of-bounds indexing panic. -/
def ts_constant_type : BaseType → TransRes String
  | .mk _ (.Apply type_name type_args) =>
    match type_name.value with
    | .Builtin builtin_type_name =>
      match builtin_type_name with
      | .Vector =>
        match type_args with
        | t0 :: _ => do
          let inner ← ts_constant_type t0
          pure (inner ++ "[]")
        | [] => .rtPanic "index out of bounds: type_args[0]"
      | b => .ok (builtin_type_name_term b)
    | _ => .rtPanic "internal error: entered unreachable code: Only builtin types supported as constants"
  | _ => .rtPanic "internal error: entered unreachable code: Only builtin types supported as constants"

/-- `ast_to_ts::is_empty_block` — empty, or a single command discarding a
unit expression. -/
def is_empty_block (block : Block) : Bool :=
  match block with
  | [] => true
  | [stmt] =>
    match stmt.value with
    | .Command cmd =>
      match cmd.value with
      | .IgnoreAndPop _ exp => is_exp_unit exp
      | _ => false
    | _ => false
  | _ => false

mutual
/-- `ast_to_ts::identify_declared_vars_in_lvalue` — collects the names bound
inside `Unpack` patterns; a top-level `Var` is *not* collected (the insertion
is commented out in the source). -/
def identify_declared_vars_in_lvalue : LValue → Finset String → Finset String
  | .mk _ .Ignore, declared => declared
  | .mk _ (.Var _ _), declared => declared
  | .mk _ (.Unpack _ _ fields), declared =>
    identify_declared_vars_in_unpack_fields fields declared

/-- The `Unpack`-field loop of `identify_declared_vars_in_lvalue`: a `Var`
field is inserted, any other field recurses. -/
def identify_declared_vars_in_unpack_fields :
    List (Name × LValue) → Finset String → Finset String
  | [], declared => declared
  | (_, lv) :: rest, declared =>
    let declared1 :=
      match lv with
      | .mk _ (.Var var _) => insert var declared
      | _ => identify_declared_vars_in_lvalue lv declared
    identify_declared_vars_in_unpack_fields rest declared1
end

/-- `ast_to_ts::identify_declared_vars_in_cmd` — only `Assign` commands bind
names. -/
def identify_declared_vars_in_cmd (cmd : Command) (declared : Finset String) :
    Finset String :=
  match cmd with
  | .mk _ (.Assign lvalues _) =>
    lvalues.foldl (fun d lv => identify_declared_vars_in_lvalue lv d) declared
  | _ => declared

mutual
/-- `ast_to_ts::identify_declared_vars_in_stmt` — recurses into nested
blocks (both conditional branches; a while's body and pre-block; a loop's
body). -/
def identify_declared_vars_in_stmt : Statement → Finset String → Finset String
  | .mk _ (.Command cmd), declared => identify_declared_vars_in_cmd cmd declared
  | .mk _ (.IfElse _ if_block else_block), declared =>
    identify_declared_vars_in_block else_block
      (identify_declared_vars_in_block if_block declared)
  | .mk _ (.While pre_block _ block), declared =>
    identify_declared_vars_in_block pre_block
      (identify_declared_vars_in_block block declared)
  | .mk _ (.Loop _ block), declared => identify_declared_vars_in_block block declared

/-- `ast_to_ts::identify_declared_vars_in_block`. -/
def identify_declared_vars_in_block : Block → Finset String → Finset String
  | [], declared => declared
  | stmt :: rest, declared =>
    identify_declared_vars_in_block rest (identify_declared_vars_in_stmt stmt declared)
end

/-- `ast_to_ts::extract_builtin_from_base_type` (the Rust `Err(false)` is
`none`). -/
def extract_builtin_from_base_type (ty : BaseType) :
    Option (BuiltinTypeName_ × List BaseType) :=
  match ty with
  | .mk _ (.Apply tn ty_args) =>
    match tn.value with
    | .Builtin builtin => some (builtin, ty_args)
    | _ => none
  | _ => none

/-- `ast_to_ts::extract_builtin_type`. -/
def extract_builtin_type (ty : SingleType) : Option (BuiltinTypeName_ × List BaseType) :=
  match ty.value with
  | .Base base_ty => extract_builtin_from_base_type base_ty
  | .Ref _ base_ty => extract_builtin_from_base_type base_ty

/-- `ast_to_ts::get_ts_handler_for_vector_in_vector` — encodes a vector
element type nested inside a vector; note the `Vector` arm recurses, so
vectors of atomics of *any* nesting depth are accepted.  (The source guards
each arm through `extract_builtin_from_base_type`; the match here inlines
that extraction so the recursion is structural.) -/
def get_ts_handler_for_vector_in_vector : BaseType → TransRes String
  | .mk _ (.Apply (.mk _ (.Builtin builtin)) inner_ty_args) =>
    (match builtin with
     | .U8 => .ok "array => $.u8ArrayArg(array)"
     | .Bool | .Address | .U64 | .U128 =>
       .ok "array => array.map(ele => $.payloadArg(ele))"
     | .Signer => .rtPanic "internal error: entered unreachable code"
     | .Vector =>
       match inner_ty_args with
       | [inner] => do
         let inner_map ← get_ts_handler_for_vector_in_vector inner
         pure ("array => array.map(" ++ inner_map ++ ")")
       | _ => .rtPanic "assertion failed: inner_ty_args.len() == 1")
  | ty => .err ⟨ty.loc, "Unsupported vector-in-vector type", []⟩

/-- `ast_to_ts::get_ts_handler_for_script_function_param` — the payload
encoder for one script-function parameter: atomics encode directly, vectors
of atomics map element-wise, nested vectors recurse through
`get_ts_handler_for_vector_in_vector`; anything else is the uniform
diagnostic (and a signer here, or a wrong-arity vector, is a Rust panic). -/
def get_ts_handler_for_script_function_param (nameArg : String) (ty : SingleType) :
    TransRes String :=
  let name := rename nameArg
  match extract_builtin_type ty with
  | some (builtin, ty_args) =>
    match builtin with
    | .Bool | .Address | .U8 | .U64 | .U128 => .ok ("$.payloadArg(" ++ name ++ ")")
    | .Signer => .rtPanic "internal error: entered unreachable code"
    | .Vector =>
      match ty_args with
      | [arg0] =>
        match extract_builtin_from_base_type arg0 with
        | some (inner_builtin, inner_ty_args) =>
          match inner_builtin with
          | .U8 => .ok ("$.u8ArrayArg(" ++ name ++ ")")
          | .Bool | .Address | .U64 | .U128 =>
            .ok (name ++ ".map(element => $.payloadArg(element))")
          | .Signer => .rtPanic "internal error: entered unreachable code"
          | .Vector =>
            match inner_ty_args with
            | [inner1] => do
              let inner_map ← get_ts_handler_for_vector_in_vector inner1
              pure (name ++ ".map(" ++ inner_map ++ ")")
            | _ => .rtPanic "assertion failed: inner_ty_args.len() == 1"
        | none =>
          .err ⟨ty.loc, "This vector type is not supported as parameter of a script function", []⟩
      | _ => .rtPanic "assertion failed: ty_args.len() == 1"
  | none => .err ⟨ty.loc, "This type is not supported as parameter of script function", []⟩

/-- Parameter loop of `ast_to_ts::script_function_has_valid_parameter`: an
encoder error means "not payload-encodable" (`false`, not a diagnostic); an
encoder panic propagates. -/
def script_function_valid_params : List (String × SingleType) → TransRes Bool
  | [] => .ok true
  | (var, ty) :: rest =>
    if is_type_signer ty then script_function_valid_params rest
    else
      match get_ts_handler_for_script_function_param var ty with
      | .ok _ => script_function_valid_params rest
      | .err _ => .ok false
      | .rtPanic m => .rtPanic m

/-- `ast_to_ts::script_function_has_valid_parameter`. -/
def script_function_has_valid_parameter (sig : FunctionSignature) : TransRes Bool :=
  script_function_valid_params sig.parameters

/-! ## `ast_to_ts.rs` — statement/control-flow translator -/

/-- `impl AstTsPrinter for Command`, `write_ts`. -/
def command_write_ts : Command → TM Unit
  | .mk loc v =>
    match v with
    | .Assign lvalues rhs =>
      if is_empty_lvalue_list lvalues then
        wWriteln (rhs.term ++ ";")
      else do
        let isSingleUnpack :=
          match lvalues with
          | [.mk _ (.Unpack _ _ _)] => true
          | _ => false
        (if isSingleUnpack then wWrite "let " else pure ())
        lvalue_list_write_ts lvalues
        wWrite " = "
        wWrite rhs.term
        wWriteln ";"
    | .Mutate lhs rhs =>
      match lhs.exp with
      | .Borrow _ => wWriteln (lhs.term ++ " = " ++ rhs.term ++ ";")
      | .Dereference _ => derr lhs.loc "Dereference in Mutate not implemented yet"
      | _ => wWriteln ("$.set(" ++ lhs.term ++ ", " ++ rhs.term ++ ");")
    | .Abort e => wWriteln ("throw $.abortCode(" ++ e.term ++ ");")
    | .Return _ exp =>
      if is_exp_unit exp then wWriteln "return;"
      else wWriteln ("return " ++ exp.term ++ ";")
    | .Break => wWriteln "break;"
    | .Continue => wWriteln "continue;"
    | .IgnoreAndPop _ exp =>
      if is_exp_unit exp then pure ()
      else wWriteln (exp.term ++ ";")
    | .Jump _ => derr loc "Unsupported Command (Jump)"

/-- The brace-wrapping shape of `impl AstTsPrinter for Block`, `write_ts`:
braces around a body one level deeper (factored out so the mutual statement
recursion below is structural). -/
def block_write_with (body : TM Unit) : TM Unit := do
  wWriteln "\x7b"
  wIncIndent
  body
  wDecIndent
  wWriteln "\x7d"

mutual
/-- `impl AstTsPrinter for Statement`, `write_ts`: a non-empty true branch
is emitted with the condition as written (plus the false branch when it has
statements); an empty true branch negates the condition and emits only the
false branch; a while with a pre-evaluation block becomes an infinite loop
replaying the pre-block then testing the condition.  (`block_write_with
(stmts_write_ts b)` is `b.write_ts`.) -/
def statement_write_ts : Statement → TM Unit
  | .mk _ (.Command cmd) => command_write_ts cmd
  | .mk _ (.IfElse cond if_block else_block) =>
    if !is_empty_block if_block then do
      wWrite ("if (" ++ cond.term ++ ") ")
      block_write_with (stmts_write_ts if_block)
      if else_block.length > 0 then do
        wWrite "else"
        block_write_with (stmts_write_ts else_block)
      else pure ()
    else do
      wWrite ("if (!" ++ cond.term ++ ") ")
      block_write_with (stmts_write_ts else_block)
  | .mk _ (.While pre_block cond block) => do
    let has_pre_block := pre_block.length > 0
    wWrite ("while (" ++ (if has_pre_block then "true" else cond.term) ++ ") ")
    shortBlock (do
      (if has_pre_block then do
        block_write_with (stmts_write_ts pre_block)
        wWriteln ("if (!(" ++ cond.term ++ ")) break;")
      else pure ())
      block_write_with (stmts_write_ts block))
  | .mk _ (.Loop _ block) => do
    wWrite "while (true) "
    block_write_with (stmts_write_ts block)

/-- The statement loop shared by `Block::write_ts` and `write_func_body`. -/
def stmts_write_ts : Block → TM Unit
  | [] => pure ()
  | s :: rest => do
    statement_write_ts s
    stmts_write_ts rest
end

/-- `impl AstTsPrinter for Block`, `write_ts`: braces around the statements
one level deeper. -/
def block_write_ts (block : Block) : TM Unit :=
  block_write_with (stmts_write_ts block)

/-- `ast_to_ts::write_func_body`: the hoisted declaration (the locals never
bound by a destructuring pattern, as one uninitialized `let`) precedes every
translated statement, and is omitted when no such local exists. -/
def write_func_body (block : Block) (new_vars : List String) : TM Unit := do
  wWriteln "\x7b"
  wIncIndent
  let declared_vars := identify_declared_vars_in_block block ∅
  let undeclared := new_vars.filter (fun var => var ∉ declared_vars)
  (if undeclared.length > 0 then
    wWriteln ("let " ++ String.intercalate ", " (undeclared.map rename) ++ ";")
  else pure ())
  stmts_write_ts block
  wDecIndent
  wWriteln "\x7d"

/-! ## `ast_to_ts.rs` — declaration emitters -/

/-- `ast_to_ts::write_simplify_constant_block`: a single-return block
collapses to the returned expression, anything else becomes an
immediately-invoked closure. -/
def write_simplify_constant_block (block : Block) : TM Unit :=
  match block with
  | [.mk _ (.Command (.mk _ (.Return _ exp)))] => wWrite exp.term
  | _ => do
    wWrite "( () => "
    block_write_ts block
    wWrite ")()"

/-- `impl AstTsPrinter for (ConstantName, &Constant)`, `write_ts`. -/
def constant_write_ts (name : Name) (cdef : Constant) : TM Unit := do
  let typename ← liftTR (ts_constant_type cdef.signature)
  wWrite ("export const " ++ rename name.sym ++ " : " ++ typename ++ " = ")
  write_simplify_constant_block cdef.value
  wWriteln ";"

/-- `impl AstTsPrinter for StructTypeParameter`, `term`. -/
def struct_type_parameter_term (stp : StructTypeParameter) : String :=
  "\x7b name: " ++ rename (quote stp.param.user_specified_name.sym)
    ++ ", isPhantom: " ++ (if stp.is_phantom then "true" else "false") ++ " \x7d"

/-- Parameter loop of `ast_to_ts::write_parameters` (with the enumeration
index for `skip_first`). -/
def write_parameters_loop (skip_signer skip_first : Bool) :
    List (String × SingleType) → Nat → TM Unit
  | [], _ => pure ()
  | (nm, ty) :: rest, idx => do
    (if skip_signer && is_type_signer ty then pure ()
     else if skip_first && idx == 0 then pure ()
     else do
       let t ← single_type_to_tstype ty
       wWriteln (rename nm ++ ": " ++ t ++ ","))
    write_parameters_loop skip_signer skip_first rest (idx + 1)

/-- `ast_to_ts::write_parameters`. -/
def write_parameters (sig : FunctionSignature) (skip_signer skip_first : Bool) :
    TM Unit := do
  wIncIndent
  write_parameters_loop skip_signer skip_first sig.parameters 0
  wDecIndent

/-- `ast_to_ts::handle_special_structs` — the closed table of hand-written
augmentations for well-known standard-library structs. -/
def handle_special_structs (name : Name) : TM Unit := do
  let c ← getCtx
  match c.current_module with
  | none => pure ()
  | some mident => do
    let package_name := format_address mident.value.address
    if package_name == "std" then
      if mident.value.module == "string" && name.sym == "String" then
        wWriteln "str(): string \x7b return $.u8str(this.bytes); \x7d"
      else pure ()
    else if package_name == "aptos_std" then do
      (if mident.value.module == "iterable_table" && name.sym == "IterableTable" then
        wWriteln "toTypedIterTable<K, V>(field: $.FieldDeclType) \x7b return (TypedIterableTable<K, V>).buildFromField(this, field); \x7d"
      else pure ())
      (if mident.value.module == "type_info" && name.sym == "TypeInfo" then do
        wWriteln "typeFullname(): string \x7b"
        wWriteln "  return `$\x7bthis.account_address.toShortString()\x7d::$\x7b$.u8str(this.module_name)\x7d::$\x7b$.u8str(this.struct_name)\x7d`;"
        wWriteln "\x7d"
        wWriteln "toTypeTag() \x7b return $.parseTypeTagOrThrow(this.typeFullname()); \x7d"
        wWriteln "moduleName() \x7b return (this.toTypeTag() as $.StructTag).module; \x7d"
        wWriteln "structName() \x7b return (this.toTypeTag() as $.StructTag).name; \x7d"
      else pure ())
    else pure ()

/-- `ast_to_ts::handle_struct_show_iter_table_directive` — each argument
must be a bare field name naming an existing field of a non-native struct
whose type is the fixed `0x1::iterable_table::IterableTable` with exactly two
type arguments; emits the fetch-all helper and records the directive. -/
def handle_struct_show_iter_table_directive (sname : Name) (sdef : StructDefinition) :
    List (String × Attribute) → TM Unit
  | [] => pure ()
  | (_, pattr) :: rest => do
    (match pattr with
     | .mk _ (.Name field_name) => do
       let mi ← currentModuleM
       emitArtifact (.showIterRecord mi sname sdef field_name)
       wNewLine
       match sdef.fields with
       | .Native _ => derr field_name.loc "cannot show iterable tables from native struct"
       | .Defined fields =>
         match fields.find? (fun f => f.1.sym == field_name.sym) with
         | none => derr field_name.loc ("Field " ++ field_name.sym ++ " does not exist")
         | some (field_decl_name, table_base) => do
           let table_targs_opt :=
             match table_base with
             | .mk _ (.Apply tn targs) =>
               match tn.value with
               | .ModuleType table_mi table_sname =>
                 if format_address_hex table_mi.value.address != "0x1"
                     || table_mi.value.module != "iterable_table"
                     || table_sname.sym != "IterableTable" then
                   none
                 else
                   some targs
               | _ => none
             | _ => none
           match table_targs_opt with
           | none =>
             derr field_name.loc ("Field " ++ field_name.sym ++ " is not an IterableTable")
           | some table_targs =>
             match table_targs with
             | [kt, vt] => do
               let key_ts_type ← base_type_to_tstype kt
               let value_ts_type ← base_type_to_tstype vt
               wWriteln ("async getIterTableEntries_" ++ field_name.sym
                 ++ "(client: AptosClient, repo: AptosParserRepo) \x7b")
               wWriteln "  const cache = new DummyCache();"
               wWriteln "  const tags = (this.typeTag as StructTag).typeParams;"
               wWriteln ("  const iterTableField = " ++ sname.sym
                 ++ ".fields.filter(f=>f.name === \x27" ++ field_name.sym ++ "\x27)[0]")
               wWriteln ("  const typedIterTable = this." ++ field_name.sym
                 ++ ".toTypedIterTable<" ++ key_ts_type ++ "," ++ value_ts_type
                 ++ ">(iterTableField);")
               wWriteln "  return await typedIterTable.fetchAll(client, repo);"
               wWriteln "\x7d"
             | _ => derr field_decl_name.loc "IterableTable should have 2 type arguments "
     | .mk ploc _ =>
       derr ploc "show_iter_table directive expects only a field name as argument")
    handle_struct_show_iter_table_directive sname sdef rest

/-- The type-parameter-name loop of `ast_to_ts::validate_method` (the
indexed access into the struct's type parameters, paired off against the
function's; the out-of-range arm is unreachable under the preceding length
check). -/
def validate_method_tparam_names : List TParam → List StructTypeParameter → TransRes Unit
  | [], _ => .ok ()
  | tparam :: rest, stp :: srest =>
    if stp.param.user_specified_name.sym != tparam.user_specified_name.sym then
      .err ⟨tparam.user_specified_name.loc, "Mismatched type parameters", []⟩
    else
      validate_method_tparam_names rest srest
  | _ :: _, [] => .rtPanic "index out of bounds: sdef.type_parameters[idx]"

/-- The type-argument loop of `ast_to_ts::validate_method`: each argument of
the qualifying parameter's struct application must be the struct's own type
parameter at the same position (the indexed access panics when the
application has more arguments than the struct has parameters, and the index
is only reached for a `Param` argument). -/
def validate_method_targs : List BaseType → List StructTypeParameter → TransRes Unit
  | [], _ => .ok ()
  | .mk tloc (.Param tp) :: rest, stp :: srest =>
    if stp.param.user_specified_name.sym != tp.user_specified_name.sym then
      .err ⟨tloc, "Mismatched type parameters", []⟩
    else
      validate_method_targs rest srest
  | .mk _ (.Param _) :: _, [] => .rtPanic "index out of bounds: sdef.type_parameters[idx]"
  | .mk tloc _ :: _, _ => .err ⟨tloc, "Mismatched type parameters", []⟩

/-- `ast_to_ts::validate_method`: the referenced function must declare the
same ordered type-parameter names as the struct, and its *first* parameter's
reference-unwrapped type must be an application of the struct itself (in the
current module) with the struct's own type parameters in order. -/
def validate_method (c : Ctx) (sname : Name) (sdef : StructDefinition) (name : Name)
    (f : Function) : TransRes Unit :=
  let errRes : TransRes Unit :=
    .err ⟨name.loc, "This function should have &" ++ sname.sym ++ " as its first parameter", []⟩
  let sig := f.signature
  if sig.type_parameters.length != sdef.type_parameters.length then
    .err ⟨name.loc, "This function should have the same type parameters as " ++ sname.sym, []⟩
  else do
    validate_method_tparam_names sig.type_parameters sdef.type_parameters
    match sig.parameters with
    | [] => errRes
    | (_, pty) :: _ =>
      let base :=
        match pty.value with
        | .Base b => b
        | .Ref _ b => b
      match base with
      | .mk _ (.Apply tn targs) =>
        match tn.value with
        | .ModuleType mi sname2 =>
          match c.current_module with
          | none => .rtPanic "called unwrap on a None current_module"
          | some cur =>
            if is_same_module cur mi && sname.sym == sname2.sym then
              validate_method_targs targs sdef.type_parameters
            else errRes
        | _ => errRes
      | _ => errRes

/-- `ast_to_ts::handle_struct_method_directive` — each argument must be a
bare function name resolving in the current module and passing
`validate_method`; emits a forwarding instance method and, for a non-unit
return type, records a printer method. -/
def handle_struct_method_directive (sname : Name) (sdef : StructDefinition) :
    List (String × Attribute) → TM Unit
  | [] => pure ()
  | (_, pattr) :: rest => do
    (match pattr with
     | .mk _ (.Name fname) => do
       let env ← readEnv
       let cur ← currentModuleM
       match env.program.modules.find? (fun p => midentValueEq p.1.value cur.value) with
       | none => rtPanicM "called unwrap on a None: current module not in program"
       | some (_, mdef) =>
         match mdef.functions.find? (fun p => p.1.sym == fname.sym) with
         | none => derr fname.loc "This function does not exist in current module"
         | some (_, func) => do
           let c ← getCtx
           liftTR (validate_method c sname sdef fname func)
           wNewLine
           let async_modifier := if isAsync env then "async " else ""
           wWriteln (async_modifier ++ fname.sym ++ "(")
           write_parameters func.signature false true
           wWriteln ") \x7b"
           wWriteln "  const cache = new DummyCache();"
           wWriteln "  const tags = (this.typeTag as StructTag).typeParams;"
           let args_str :=
             String.intercalate ", " ((func.signature.parameters.drop 1).map (fun p => p.1))
           wWriteln ("  return " ++ format_function_name fname.sym (isAsync env)
             ++ "(this, " ++ args_str ++ (if args_str == "" then "" else ", ") ++ "cache"
             ++ (if func.signature.type_parameters.isEmpty then "" else ", tags") ++ ");")
           wWriteln "\x7d"
           (match func.signature.return_type.value with
            | .Unit => pure ()
            | _ => do
              let mi ← currentModuleM
              emitArtifact (.printerRecord mi sname sdef fname func.signature))
     | .mk ploc _ =>
       derr ploc "show directive expects only a list of function names as argument")
    handle_struct_method_directive sname sdef rest

/-- `ast_to_ts::handle_struct_directives` — closed dispatch over the struct
attribute names; `cmd` is rejected, unrecognized names are ignored. -/
def handle_struct_directives (sname : Name) (sdef : StructDefinition) :
    List (String × Attribute) → TM Unit
  | [] => pure ()
  | (nm, attr) :: rest => do
    (if nm == "cmd" then
      match attr with
      | .mk aloc _ => derr aloc "the \x27cmd\x27 attribute cannot be used on structs"
    else if nm == "method" then
      match attr with
      | .mk _ (.Parameterized _ inner_attrs) => do
        wNewLine
        handle_struct_method_directive sname sdef inner_attrs
      | .mk aloc _ =>
        derr aloc "the \x27method\x27 attribute requires a list of function names as argument (e.g. $[method(show_x_as_y)]"
    else if nm == "show_iter_table" then
      match attr with
      | .mk _ (.Parameterized _ inner_attrs) => do
        wNewLine
        handle_struct_show_iter_table_directive sname sdef inner_attrs
      | .mk aloc _ =>
        derr aloc "the \x27show\x27 requires a list of function names as argument (e.g. $[show(show_x_as_y)]"
    else pure ())
    handle_struct_directives sname sdef rest

/-- `impl AstTsPrinter for (StructName, &StructDefinition)`, `write_ts`. -/
def struct_write_ts (name : Name) (sdef : StructDefinition) : TM Unit := do
  wNewLine
  wWriteln ("export class " ++ rename name.sym ++ " ")
  shortBlock (do
    wWriteln "static moduleAddress = moduleAddress;"
    wWriteln "static moduleName = moduleName;"
    wWriteln ("static structName: string = " ++ quote (rename name.sym) ++ ";")
    wWrite "static typeParameters: TypeParamDeclType[] = ["
    wIndented 2
      (wList ","
        (fun stp => do
          wWrite (struct_type_parameter_term stp)
          pure true)
        sdef.type_parameters)
    wWriteln "];"
    match sdef.fields with
    | .Native _ => pure ()
    | .Defined fields => do
      wWriteln "static fields: FieldDeclType[] = ["
      wList ","
        (fun (f : Name × BaseType) => do
          let tag ← liftTR (base_type_to_typetag_builder sdef.type_parameters f.2)
          wWrite ("\x7b name: " ++ quote (rename f.1.sym) ++ ", typeTag: " ++ tag ++ " \x7d")
          pure true)
        fields
      wWriteln "];"
      wNewLine
      (if !fields.isEmpty then do
        wList ""
          (fun (f : Name × BaseType) => do
            let t ← base_type_to_tstype f.2
            wWrite (rename f.1.sym ++ ": " ++ t ++ ";")
            pure true)
          fields
        wNewLine
        wNewLine
      else pure ())
      wWrite "constructor(proto: any, public typeTag: TypeTag) \x7b"
      wIndented 2
        (wList ""
          (fun (f : Name × BaseType) => do
            let nm := rename f.1.sym
            let tstype ← base_type_to_tstype f.2
            wWrite ("this." ++ nm ++ " = proto[\x27" ++ nm ++ "\x27] as " ++ tstype ++ ";")
            pure true)
          fields)
      wWriteln "\x7d"
      wNewLine
      wWriteln ("static " ++ name.sym ++ "Parser(data:any, typeTag: TypeTag, repo: AptosParserRepo) : "
        ++ name.sym ++ " \x7b")
      wWriteln ("  const proto = $.parseStructProto(data, typeTag, repo, " ++ name.sym ++ ");")
      wWriteln ("  return new " ++ name.sym ++ "(proto, typeTag);")
      wWriteln "\x7d"
      (if sdef.abilities.contains .Key then do
        wNewLine
        wWriteln "static async load(repo: AptosParserRepo, client: AptosClient, address: HexString, typeParams: TypeTag[]) \x7b"
        wWriteln ("  const result = await repo.loadResource(client, address, " ++ name.sym
          ++ ", typeParams);")
        wWriteln ("  return result as unknown as " ++ name.sym ++ ";")
        wWrite "\x7d"
      else pure ())
      handle_special_structs name
      handle_struct_directives name sdef sdef.attributes)
  wNewLine

/-! ## `ast_to_ts.rs` — function directives and function emitter -/

/-- The inner name of an attribute (the map key's `Name`, used for its
location in diagnostics). -/
def attrInnerName : Attribute → Name
  | .mk _ (.Name n) => n
  | .mk _ (.Assigned n _) => n
  | .mk _ (.Parameterized n _) => n

/-- The `desc` parameter loop of `ast_to_ts::handle_function_cmd_directive`:
`desc` must carry a byte-string value; any other parameter name is
rejected. -/
def handle_function_cmd_params : List (String × Attribute) → Option String → TM (Option String)
  | [], desc => pure desc
  | (pname, pattr) :: rest, _desc =>
    if pname == "desc" then
      match extract_attribute_value_string pattr with
      | some str_desc => handle_function_cmd_params rest (some str_desc)
      | none =>
        match pattr with
        | .mk ploc _ =>
          derr ploc "desc needs to be assigned a byte string value (e.g. b\"description\")"
    else
      derr (attrInnerName pattr).loc "Unrecognized parameter to cmd directive"

/-- `ast_to_ts::handle_function_cmd_directive` — requires an entry function;
records the command (with its optional description) and emits no code. -/
def handle_function_cmd_directive (fname : Name) (f : Function)
    (inner_attrs : Option (List (String × Attribute))) : TM Unit := do
  if !f.entry then
    derr fname.loc "the cmd attribute only works on public entry functions"
  else do
    let desc ←
      match inner_attrs with
      | some params => handle_function_cmd_params params none
      | none => pure none
    let mi ← currentModuleM
    emitArtifact (.cmdRecord mi fname f desc)

/-- `ast_to_ts::write_query_function` — the companion emitted by the query
directive: builds the payload, simulates it, and decodes the simulation
output as the published struct type via `takeSimulationValue`. -/
def write_query_function (fname : Name) (f : Function) (return_type : BaseType) :
    TM Unit := do
  let query_fname := "query_" ++ fname.sym
  wWriteln ("export async function " ++ query_fname ++ "(")
  wIncIndent
  wWriteln "client: AptosClient,"
  wWriteln "account: AptosAccount,"
  wWriteln "repo: AptosParserRepo,"
  write_parameters f.signature true false
  wWriteln "$p: TypeTag[],"
  wDecIndent
  wWriteln ") \x7b"
  let param_list0 :=
    (f.signature.parameters.filter (fun p => !is_type_signer p.2)).map (fun p => p.1)
  let param_list :=
    if !f.signature.type_parameters.isEmpty then param_list0 ++ ["$p"] else param_list0
  match return_type with
  | .mk _ (.Apply tn _) =>
    match tn.value with
    | .ModuleType _ sname => do
      let output_struct_name := sname.sym
      wIncIndent
      wWriteln ("const payload = buildPayload_" ++ fname.sym ++ "("
        ++ String.intercalate ", " param_list ++ ");")
      let c ← getCtx
      let output_tag ← liftTR (base_type_to_typetag c return_type)
      wWriteln ("const outputTypeTag = " ++ output_tag ++ ";")
      wWriteln "const output = await $.simulatePayloadTx(client, account, payload);"
      wWriteln ("return $.takeSimulationValue<" ++ output_struct_name
        ++ ">(output, outputTypeTag, repo)")
      wDecIndent
      wWriteln "\x7d"
    | _ => derr return_type.loc "Expect move_to to contain a struct type"
  | _ => derr return_type.loc "Expect move_to to contain a struct type"

/-- `ast_to_ts::handle_function_query_directive` — requires an entry
function with a defined, non-empty body whose final statement returns a
`move_to` builtin call; emits the query companion and records the query. -/
def handle_function_query_directive (fname : Name) (f : Function) : TM Unit := do
  if !f.entry then
    derr fname.loc "the query attribute only works on public entry functions"
  else
    match f.body.value with
    | .Native =>
      derr fname.loc "the query attribute can only be used on user-defined entry functions"
    | .Defined _ body =>
      match body.getLast? with
      | none =>
        derr f.body.loc "the query attribute can only be used on entry functions with a move_to<X>(signer, x); as the final statement"
      | some (.mk lloc sv) =>
        match sv with
        | .Command (.mk _ (.Return _ exp)) =>
          match exp.exp with
          | .Builtin bf _ =>
            match bf.value with
            | .MoveTo base => do
              write_query_function fname f base
              let mi ← currentModuleM
              emitArtifact (.queryRecord mi fname f)
            | _ =>
              derr lloc "the query attribute can only be used on entry functions with a move_to<X>(signer, x); as the final statement"
          | _ =>
            derr lloc "the query attribute can only be used on entry functions with a move_to<X>(signer, x); as the final statement"
        | _ =>
          derr lloc "the query attribute can only be used on entry functions with a move_to<X>(signer, x); as the final statement"

/-- `ast_to_ts::handle_function_directives` — closed dispatch over the
function attribute names; `method` is rejected, unrecognized names are
ignored. -/
def handle_function_directives (fname : Name) (f : Function) :
    List (String × Attribute) → TM Unit
  | [] => pure ()
  | (nm, attr) :: rest => do
    (if nm == "cmd" then
      match attr with
      | .mk _ (.Parameterized _ inner_attrs) => do
        wNewLine
        handle_function_cmd_directive fname f (some inner_attrs)
      | .mk _ (.Name _) => do
        wNewLine
        handle_function_cmd_directive fname f none
      | .mk aloc (.Assigned _ _) => derr aloc "the \x27cmd\x27 attribute cannot be assigned"
    else if nm == "query" then
      match attr with
      | .mk _ (.Name _) => do
        wNewLine
        handle_function_query_directive fname f
      | .mk aloc _ => derr aloc "the \x27query\x27 attribute has no parameters"
    else if nm == "method" then
      match attr with
      | .mk aloc _ => derr aloc "the \x27method\x27 attribute can only be used on structs"
    else pure ())
    handle_function_directives fname f rest

/-- The payload-argument loop of the payload-builder section of
`(FunctionName, &Function)::write_ts`. -/
def write_payload_args : List (String × SingleType) → TM Unit
  | [] => pure ()
  | (pname, ptype) :: rest => do
    let h ← liftTR (get_ts_handler_for_script_function_param pname ptype)
    wWriteln ("    " ++ h ++ ",")
    write_payload_args rest

/-- The delegation line built by the `Native` arm of `function_write_ts`:
the `native_name`, `args`, `args_comma` and `comma_tags` bindings of the
source, assembled as `native_name(args_comma$c comma_tags);`. -/
def native_delegation_line (name : Name) (func : Function) (mident : ModuleIdent) : String :=
  let num_tparams := func.signature.type_parameters.length
  let native_name := "return $." ++ format_address mident.value.address ++ "_"
    ++ mident.value.module ++ "_" ++ name.sym
  let args := String.intercalate ", " (func.signature.parameters.map (fun p => rename p.1))
  let args_comma := args ++ (if args == "" then "" else ", ")
  let comma_tags :=
    (if num_tparams == 0 then "" else ", ")
    ++ (if num_tparams == 0 then ""
        else "[" ++ String.intercalate ", "
          ((List.range num_tparams).map (fun u => "$p[" ++ toString u ++ "]")) ++ "]")
  native_name ++ "(" ++ args_comma ++ "$c" ++ comma_tags ++ ");"

/-- `impl AstTsPrinter for (FunctionName, &Function)`, `write_ts`: the
function emitter — header and parameters, then the body (a native body
delegates to the runtime entry point `$.{address}_{module}_{name}` passing
the ordinary arguments, then `$c`, then — for a generic function — the
type-tag array; a defined body goes through `write_func_body`), then the
payload builder for entry functions whose parameters are all
payload-encodable, then the function directives. -/
def function_write_ts (name : Name) (func : Function) : TM Unit := do
  let env ← readEnv
  let is_entry := func.entry
  (if env.config.test then do
    let is_test ← check_test name func
    if is_test then wWriteln "// #[test]" else pure ()
  else pure ())
  let async_modifier := if isAsync env then "async " else ""
  wWriteln ("export " ++ async_modifier ++ "function " ++ rename name.sym ++ "_ (")
  write_parameters func.signature false false
  wWriteln "  $c: AptosDataCache,"
  let num_tparams := func.signature.type_parameters.length
  let tpnames :=
    if num_tparams == 0 then ""
    else
      String.intercalate ", "
        (func.signature.type_parameters.map (fun tp => tp.user_specified_name.sym))
  (if num_tparams > 0 then wWriteln ("  $p: TypeTag[], /* <" ++ tpnames ++ ">*/")
   else pure ())
  wWrite "): "
  let ret_type_str ← type_to_tstype func.signature.return_type
  (if isAsync env then wWrite ("Promise<" ++ ret_type_str ++ ">") else wWrite ret_type_str)
  wWrite " "
  modifyCtx (fun c => { c with current_function_signature := some func.signature })
  let param_names := func.signature.parameters.map (fun p => p.1)
  (match func.body.value with
   | .Native => do
     let mident ← currentModuleM
     shortBlock (wWriteln (native_delegation_line name func mident))
   | .Defined locals body => do
     let new_vars := (locals.map (fun p => p.1)).filter (fun nm => !param_names.contains nm)
     write_func_body body new_vars)
  wNewLine
  (if is_entry then do
    let valid ← liftTR (script_function_has_valid_parameter func.signature)
    if valid then do
      wNewLine
      wWriteln ("export function buildPayload_" ++ name.sym ++ " (")
      write_parameters func.signature true false
      (if num_tparams > 0 then wWriteln ("  $p: TypeTag[], /* <" ++ tpnames ++ ">*/")
       else pure ())
      wWrite ") "
      let params_no_signers := func.signature.parameters.filter (fun p => !is_type_signer p.2)
      shortBlock (do
        let mident ← currentModuleM
        let address := format_address_hex mident.value.address
        (if num_tparams > 0 then
          wWriteln "const typeParamStrings = $p.map(t=>$.getTypeTagFullname(t));"
         else wWriteln "const typeParamStrings = [] as string[];")
        wWriteln "return $.buildPayload("
        wWriteln ("  " ++ quote (address ++ "::" ++ mident.value.module ++ "::" ++ name.sym) ++ ",")
        wWriteln "  typeParamStrings,"
        (if params_no_signers.isEmpty then wWriteln "  []"
         else do
           wWriteln "  ["
           write_payload_args params_no_signers
           wWriteln "  ]")
        wWriteln ");")
      wNewLine
    else pure ()
  else pure ())
  handle_function_directives name func func.attributes
  modifyCtx (fun c => { c with current_function_signature := none })

/-! ## `ast_to_ts.rs` — module emitter -/

/-- The struct loop of `ast_to_ts::write_load_parsers`. -/
def write_load_parsers_loop (mident : ModuleIdent) :
    List (Name × StructDefinition) → TM Unit
  | [] => pure ()
  | (sname, _) :: rest => do
    let paramless_name := format_address_hex mident.value.address ++ "::"
      ++ mident.value.module ++ "::" ++ sname.sym
    wWriteln ("  repo.addParser(" ++ quote paramless_name ++ ", " ++ sname.sym ++ "."
      ++ sname.sym ++ "Parser);")
    write_load_parsers_loop mident rest

/-- `ast_to_ts::write_load_parsers` — the registry-builder export pairing
each struct's fully qualified name with its generated static parser. -/
def write_load_parsers (mident : ModuleIdent) (module : ModuleDefinition) : TM Unit := do
  wWriteln "export function loadParsers(repo: AptosParserRepo) \x7b"
  write_load_parsers_loop mident module.structs
  wWriteln "\x7d"

/-- `ast_to_ts::handle_special_module` — the hand-written helper
declarations for the well-known table modules at address `0x1`. -/
def handle_special_module (mi : ModuleIdent) : TM Unit :=
  if format_address_hex mi.value.address == "0x1" then
    if mi.value.module == "table" then wWriteln get_table_helper_decl
    else if mi.value.module == "iterable_table" then wWriteln get_iterable_table_helper_decl
    else pure ()
  else pure ()

/-- The constant loop of the module emitter (`key_cloned_iter`). -/
def constants_write_ts : List (Name × Constant) → TM Unit
  | [] => pure ()
  | (cname, cdef) :: rest => do
    constant_write_ts cname cdef
    constants_write_ts rest

/-- The struct loop of the module emitter (`key_cloned_iter`). -/
def structs_write_ts : List (Name × StructDefinition) → TM Unit
  | [] => pure ()
  | (sname, sdef) :: rest => do
    struct_write_ts sname sdef
    structs_write_ts rest

/-- The function loop of the module emitter (`key_cloned_iter`). -/
def functions_write_ts : List (Name × Function) → TM Unit
  | [] => pure ()
  | (fname, fdef) :: rest => do
    function_write_ts fname fdef
    functions_write_ts rest

/-- Modelled from the spec: `TsgenWriter::export_const` — one exported
constant binding line. -/
def wExportConst (nm : String) (value : String) : TM Unit :=
  wWriteln ("export const " ++ nm ++ " = " ++ value ++ ";")

/-- `impl AstTsPrinter for (ModuleIdent, &ModuleDefinition)`, `write_ts`:
metadata bindings, constants, structs, functions, the parser registry, and
the special-module table (the `config.ui` arm of the source is an empty
block). -/
def module_write_ts (name : ModuleIdent) (module : ModuleDefinition) : TM Unit := do
  let package_name := module.package_name.getD ""
  wExportConst "packageName" (quote package_name)
  wExportConst "moduleAddress"
    ("new HexString(" ++ quote (format_address_hex name.value.address) ++ ")")
  wExportConst "moduleName" (quote name.value.module)
  wNewLine
  constants_write_ts module.constants
  wNewLine
  structs_write_ts module.structs
  functions_write_ts module.functions
  write_load_parsers name module
  handle_special_module name

/-- The fixed preamble of runtime-library imports (`to_ts_string`). -/
def ts_preamble : List String :=
  [ "import * as $ from \"@manahippo/move-to-ts\";",
    "import \x7bAptosDataCache, AptosParserRepo, DummyCache\x7d from \"@manahippo/move-to-ts\";",
    "import \x7bU8, U64, U128\x7d from \"@manahippo/move-to-ts\";",
    "import \x7bu8, u64, u128\x7d from \"@manahippo/move-to-ts\";",
    "import \x7bTypeParamDeclType, FieldDeclType\x7d from \"@manahippo/move-to-ts\";",
    "import \x7bAtomicTypeTag, StructTag, TypeTag, VectorTag\x7d from \"@manahippo/move-to-ts\";",
    "import \x7bHexString, AptosClient, AptosAccount\x7d from \"aptos\";" ]

/-- The rendered content of a writer (`format!("{}", writer)`). -/
def TsgenWriter.render (w : TsgenWriter) : String :=
  String.intercalate "\n" (w.lines ++ [w.cur])

/-- The import lines rendered by `to_ts_string`: one per cross-package
import, then one per same-package import, each set iterated in the sorted,
duplicate-free order of its `BTreeSet`. -/
def import_lines (c : Ctx) : List String :=
  ((c.package_imports.sort (· ≤ ·)).map (fun package_name =>
    "import * as " ++ capitalize package_name ++ " from \"../" ++ package_name ++ "\";"))
  ++ ((c.same_package_imports.sort (· ≤ ·)).map (fun module_name =>
    "import * as " ++ capitalize module_name ++ " from \"./" ++ module_name ++ "\";"))

/-- `ast_to_ts::to_ts_string` (specialized to the module printer, its one
use on this path): run the module emitter into a fresh writer, then join the
preamble, the import lines, and the writer content. -/
def to_ts_string (name : ModuleIdent) (module : ModuleDefinition) : TM String :=
  fun env s =>
    match module_write_ts name module env { w := TsgenWriter.new, c := s.c } with
    | (.ok _, s1, arts) =>
      (.ok (String.intercalate "\n" (ts_preamble ++ import_lines s1.c ++ [s1.w.render])),
        { w := s.w, c := s1.c }, arts)
    | (.err d, s1, arts) => (.err d, { w := s.w, c := s1.c }, arts)
    | (.rtPanic m, s1, arts) => (.rtPanic m, { w := s.w, c := s1.c }, arts)

/-- `ast_to_ts::translate_module`: derive the output path, reset the
per-module context, and render (the Rust `Err` arm repackages the single
diagnostic into a `Diagnostics` collection, which changes nothing about the
error itself). -/
def translate_module (mident : ModuleIdent) (mdef : ModuleDefinition) :
    TM (String × String) := do
  let filename := format_address mident.value.address ++ "/" ++ mident.value.module ++ ".ts"
  modifyCtx (fun c => reset_for_module c mident)
  let content ← to_ts_string mident mdef
  pure (filename, content)

/-! ## Spec-side predicates (stated from the spec's words, for comparison
with the embedded source functions) -/

/-- The five payload-atomic builtins named by the spec (`bool`, `address`,
`u8`, `u64`, `u128`). -/
def is_atomic : BuiltinTypeName_ → Bool
  | .Bool | .Address | .U8 | .U64 | .U128 => true
  | _ => false

/-- The claim's payload-encodable shape test, as C4 states it: an atomic
builtin, or a one- or two-level vector of atomics. -/
def claim_payload_encodable (ty : SingleType) : Bool :=
  match extract_builtin_type ty with
  | none => false
  | some (b, args) =>
    if is_atomic b then true
    else if b == .Vector then
      match args with
      | [a1] =>
        match extract_builtin_from_base_type a1 with
        | none => false
        | some (b1, args1) =>
          if is_atomic b1 then true
          else if b1 == .Vector then
            match args1 with
            | [a2] =>
              match extract_builtin_from_base_type a2 with
              | some (b2, _) => is_atomic b2
              | none => false
            | _ => false
          else false
      | _ => false
    else false

mutual
/-- The amended payload-encodable shape test: an atomic builtin or a vector
of atomics nested to *any* depth (what the source accepts). -/
def amended_encodable_base : BaseType → Bool
  | .mk _ (.Apply (.mk _ (.Builtin b)) args) =>
    if is_atomic b then true
    else if b == .Vector then amended_encodable_vec_args args
    else false
  | _ => false

/-- A vector's argument list is encodable when it is a single encodable
element type. -/
def amended_encodable_vec_args : List BaseType → Bool
  | [inner] => amended_encodable_base inner
  | _ => false
end

/-- The amended payload-encodable test on a (reference-unwrapped) parameter
type. -/
def amended_payload_encodable (ty : SingleType) : Bool :=
  match ty.value with
  | .Base b => amended_encodable_base b
  | .Ref _ b => amended_encodable_base b

/-- Ordered equality of a function's type-parameter names against a struct's
(the "same ordered type-parameter names" condition of C3). -/
def same_tparam_names : List TParam → List StructTypeParameter → Bool
  | [], [] => true
  | tp :: rest, stp :: srest =>
    stp.param.user_specified_name.sym == tp.user_specified_name.sym
      && same_tparam_names rest srest
  | _, _ => false

/-- C3's "type arguments are the struct's own type parameters in the same
order" (all of them, positionally). -/
def targs_are_own_params : List BaseType → List StructTypeParameter → Bool
  | [], [] => true
  | .mk _ (.Param tp) :: rest, stp :: srest =>
    tp.user_specified_name.sym == stp.param.user_specified_name.sym
      && targs_are_own_params rest srest
  | _, _ => false

/-- C3's qualifying-parameter condition on one parameter: its
reference-unwrapped type is an application of the struct itself (in the
current module) with the struct's own type parameters in order. -/
def claim_qualifying_param (c : Ctx) (sname : Name) (sdef : StructDefinition)
    (p : String × SingleType) : Bool :=
  let base :=
    match p.2.value with
    | .Base b => b
    | .Ref _ b => b
  match base with
  | .mk _ (.Apply tn targs) =>
    match tn.value with
    | .ModuleType mi sname2 =>
      (match c.current_module with
       | some cur => is_same_module cur mi
       | none => false)
        && sname.sym == sname2.sym
        && targs_are_own_params targs sdef.type_parameters
    | _ => false
  | _ => false

/-- The positional prefix check the source actually performs on the
qualifying parameter's type arguments: each provided argument must be the
struct's type parameter at the same position (arguments beyond the struct's
parameter count would panic and are excluded by the no-panic hypothesis). -/
def targs_match_prefix : List BaseType → List StructTypeParameter → Bool
  | [], _ => true
  | .mk _ (.Param tp) :: rest, stp :: srest =>
    tp.user_specified_name.sym == stp.param.user_specified_name.sym
      && targs_match_prefix rest srest
  | _, _ => false

/-- The validation the source's `validate_method` actually implements (for
the amended C3): same ordered type-parameter names, and the *first*
parameter qualifies (reference-unwrapped application of the struct in the
current module, type arguments matching the struct's parameters
positionally). -/
def amended_method_valid (c : Ctx) (sname : Name) (sdef : StructDefinition)
    (f : Function) : Bool :=
  same_tparam_names f.signature.type_parameters sdef.type_parameters
    && (match f.signature.parameters with
        | [] => false
        | p :: _ =>
          let base :=
            match p.2.value with
            | .Base b => b
            | .Ref _ b => b
          match base with
          | .mk _ (.Apply tn targs) =>
            match tn.value with
            | .ModuleType mi sname2 =>
              (match c.current_module with
               | some cur => is_same_module cur mi
               | none => false)
                && sname.sym == sname2.sym
                && targs_match_prefix targs sdef.type_parameters
            | _ => false
          | _ => false)

mutual
/-- Spec-side (C5): the names that are the target of a destructuring
(`Unpack`) pattern bind inside an l-value; a bare `Var` or `Ignore` is not a
destructuring bind. -/
def spec_destructured_lvalue : LValue → Finset String
  | .mk _ .Ignore => ∅
  | .mk _ (.Var _ _) => ∅
  | .mk _ (.Unpack _ _ fields) => spec_destructured_fields fields

/-- Spec-side (C5): the names bound inside an `Unpack` field list — a `Var`
field is bound by the destructuring, any other field recurses. -/
def spec_destructured_fields : List (Name × LValue) → Finset String
  | [] => ∅
  | (_, lv) :: rest =>
    (match lv with
     | .mk _ (.Var var _) => {var}
     | lv2 => spec_destructured_lvalue lv2) ∪ spec_destructured_fields rest
end

/-- Spec-side (C5): destructuring binds across an assignment's l-value
list. -/
def spec_destructured_lvalues : List LValue → Finset String
  | [] => ∅
  | lv :: rest => spec_destructured_lvalue lv ∪ spec_destructured_lvalues rest

/-- Spec-side (C5): only `Assign` commands bind names; every other command
binds none. -/
def spec_destructured_cmd : Command → Finset String
  | .mk _ (.Assign lvalues _) => spec_destructured_lvalues lvalues
  | _ => ∅

mutual
/-- Spec-side (C5): destructuring binds anywhere in a statement, including
nested blocks. -/
def spec_destructured_stmt : Statement → Finset String
  | .mk _ (.Command cmd) => spec_destructured_cmd cmd
  | .mk _ (.IfElse _ if_block else_block) =>
    spec_destructured_block if_block ∪ spec_destructured_block else_block
  | .mk _ (.While pre_block _ block) =>
    spec_destructured_block pre_block ∪ spec_destructured_block block
  | .mk _ (.Loop _ block) => spec_destructured_block block

/-- Spec-side (C5): destructuring binds anywhere in a block. -/
def spec_destructured_block : Block → Finset String
  | [] => ∅
  | s :: rest => spec_destructured_stmt s ∪ spec_destructured_block rest
end

/-- Spec-side (C6): the claim's description of a collapsible true branch —
empty, or a single discarded unit expression. -/
def spec_empty_true_branch (b : Block) : Prop :=
  b = [] ∨ ∃ (sloc cloc : Loc) (n : Nat) (e : Exp),
    b = [Statement.mk sloc (.Command (Command.mk cloc (.IgnoreAndPop n e)))]
      ∧ is_exp_unit e = true

/-- Spec-side (C1): the base type published by the final statement of a
defined function body when that statement is a single resource-publish — a
`return` of a `move_to` builtin call; `none` for a native body, an empty
body, or any other final-statement shape. -/
def query_last_moveto (f : Function) : Option BaseType :=
  match f.body.value with
  | .Native => none
  | .Defined _ body =>
    match body.getLast? with
    | some (.mk _ (.Command (.mk _ (.Return _ exp)))) =>
      (match exp.exp with
       | .Builtin bf _ =>
         (match bf.value with
          | .MoveTo base => some base
          | _ => none)
       | _ => none)
    | _ => none

/-- C6 witness examples: a condition expression and a `return` statement. -/
def exCondC6 : Exp := ⟨0, .Other "b"⟩

def exRetStmtC6 : Statement :=
  .mk 0 (.Command (.mk 0 (.Return true ⟨0, .Other "x"⟩)))

/-- C7 witness example: an empty module definition. -/
def exMdefC7 : ModuleDefinition := ⟨none, [], [], []⟩

/-! ## Example values for witnesses and counterexamples -/

def exConfig : MoveToTsOptions := ⟨false, false, false, false, ""⟩

def exEnv : Env := ⟨⟨[]⟩, exConfig⟩

def exMident : ModuleIdent := ⟨0, ⟨.Numerical (some "A") 1, "m"⟩⟩

def exCtx : Ctx := ⟨some exMident, none, ∅, ∅⟩

def exState : TState := ⟨TsgenWriter.new, exCtx⟩

def btU64 : BaseType := .mk 0 (.Apply (.mk 0 (.Builtin .U64)) [])

def btVec (t : BaseType) : BaseType := .mk 0 (.Apply (.mk 0 (.Builtin .Vector)) [t])

/-- C1 witness examples: a struct base type and an entry function whose
defined body ends in a `move_to` of it. -/
def exStructBaseC1 : BaseType :=
  .mk 0 (.Apply (.mk 0 (.ModuleType exMident ⟨0, "S"⟩)) [])

def exFuncC1 : Function :=
  ⟨[], true, ⟨[], [], ⟨0, .Unit⟩⟩,
   ⟨0, .Defined []
     [.mk 0 (.Command (.mk 0 (.Return true
       ⟨0, .Builtin ⟨0, .MoveTo exStructBaseC1⟩ "move_to(s, v)"⟩)))]⟩⟩

/-! ## C8 -/

def exTP : TParam := ⟨⟨0, "T"⟩⟩

/-- C2 example: a generic native function with one ordinary parameter. -/
def sigC2 : FunctionSignature :=
  ⟨[exTP], [("a", ⟨0, .Base btU64⟩)], ⟨0, .Unit⟩⟩

def exFuncC2 : Function := ⟨[], false, sigC2, ⟨0, .Native⟩⟩

def exSnameC3 : Name := ⟨0, "S"⟩

def exSdefC3 : StructDefinition := ⟨[], [], [⟨false, exTP⟩], .Defined []⟩

def exStructApplyC3 : BaseType :=
  .mk 0 (.Apply (.mk 0 (.ModuleType exMident exSnameC3)) [.mk 0 (.Param exTP)])

def exFuncC3 : Function :=
  ⟨[], false,
   ⟨[exTP], [("x", ⟨0, .Base btU64⟩), ("y", ⟨0, .Ref false exStructApplyC3⟩)], ⟨0, .Unit⟩⟩,
   ⟨0, .Defined [] []⟩⟩

/-- Shape accessor used by the amended C3 hypotheses: the type-argument
list of the first parameter's (reference-unwrapped) type application, when
it has that shape. -/
def first_param_targs (f : Function) : List BaseType :=
  match f.signature.parameters with
  | [] => []
  | (_, pty) :: _ =>
    match (match pty.value with | .Base b => b | .Ref _ b => b) with
    | .mk _ (.Apply _ targs) => targs
    | _ => []

/-- Helper: the amended encodability of an extracted builtin application. -/
def encodable_of_extract (bb : BuiltinTypeName_) (args : List BaseType) : Bool :=
  if is_atomic bb then true
  else if bb == .Vector then amended_encodable_vec_args args
  else false

def sigC4 : FunctionSignature :=
  ⟨[], [("x", ⟨0, .Base (btVec (btVec (btVec btU64)))⟩)], ⟨0, .Unit⟩⟩

def exFuncC4 : Function := ⟨[], true, sigC4, ⟨0, .Defined [] []⟩⟩

/-- C8 counterexample: translating a constant whose declared type is the
unresolved/error type does *not* fail by raising the uniform "not
translatable" diagnostic — `ts_constant_type` aborts with a Rust
`unreachable!` panic instead. -/
theorem C8_counterexample :
    (ts_constant_type (.mk 7 .UnresolvedError)).isErr = false
    ∧ (ts_constant_type (.mk 7 .UnresolvedError)).isPanic = true := by
  exact ⟨rfl, rfl⟩

/-- C8 (amended): translating a constant whose declared type is not an
application of a builtin type name — a type parameter, a struct application,
or an unresolved/error type; a tuple cannot occur at all, since a constant's
signature is a base type — aborts with the Rust `unreachable!` panic "Only
builtin types supported as constants", which carries no diagnostic and no
source location, and the constant emitter propagates that panic unchanged. -/
theorem C8_amended (loca : Loc) (v : BaseType_)
    (h : ∀ tn targs b, v = .Apply tn targs → tn.value ≠ .Builtin b) :
    ts_constant_type (.mk loca v)
      = .rtPanic "internal error: entered unreachable code: Only builtin types supported as constants"
    ∧ ∀ (nm : Name) (cloc : Loc) (blk : Block) (env : Env) (s : TState),
        constant_write_ts nm ⟨cloc, .mk loca v, blk⟩ env s
          = (.rtPanic "internal error: entered unreachable code: Only builtin types supported as constants",
             s, []) := by
  have h1 : ts_constant_type (.mk loca v)
      = .rtPanic "internal error: entered unreachable code: Only builtin types supported as constants" := by
    cases v with
    | Param tp => rfl
    | Apply tn targs =>
      obtain ⟨tloc, tv⟩ := tn
      cases tv with
      | Builtin b => exact absurd rfl (h (.mk tloc (.Builtin b)) targs b rfl)
      | ModuleType mi sn => rfl
    | UnresolvedError => rfl
    | Unreachable => rfl
  refine ⟨h1, ?_⟩
  intro nm cloc blk env s
  simp [constant_write_ts, h1, liftTR, Bind.bind, TM.bind_]

/-- C8 witness: the amended theorem applied to the unresolved/error type. -/
theorem C8_witness :
    ts_constant_type (.mk 7 .UnresolvedError)
      = .rtPanic "internal error: entered unreachable code: Only builtin types supported as constants" :=
  (C8_amended 7 .UnresolvedError (by intro tn targs b hh; cases hh)).1

/-! ## C9 -/

/-- C9: `is_same_package` holds of two numerical addresses exactly when both
the optional symbolic names and the numeric values agree; consequently a
reference from a module under address name `a` to a different module under
address name `b` with the *same* numeric value is qualified through the
fully-qualified cross-package form and records a cross-package import. -/
theorem C9_package_identity :
    (∀ (n1 n2 : Option String) (v1 v2 : Nat),
      is_same_package (.Numerical n1 v1) (.Numerical n2 v2) = true ↔ n1 = n2 ∧ v1 = v2)
    ∧ (∀ (a b m1 m2 nm : String) (v : Nat) (l1 l2 : Loc)
         (csig : Option FunctionSignature) (spi pi : Finset String)
         (w : TsgenWriter) (env : Env),
       a ≠ b → m1 ≠ m2 →
       format_qualified_name ⟨l2, ⟨.Numerical (some b) v, m2⟩⟩ nm env
           ⟨w, ⟨some ⟨l1, ⟨.Numerical (some a) v, m1⟩⟩, csig, spi, pi⟩⟩
         = (.ok (capitalize b ++ "." ++ capitalize m2 ++ "." ++ rename nm),
            ⟨w, ⟨some ⟨l1, ⟨.Numerical (some a) v, m1⟩⟩, csig, spi, insert b pi⟩⟩, [])) := by
  constructor
  · intro n1 n2 v1 v2
    simp only [is_same_package]
    simp
  · intro a b m1 m2 nm v l1 l2 csig spi pi w env hab hm
    simp [format_qualified_name, Bind.bind, TM.bind_, currentModuleM, midentValueEq,
      addressEq, is_same_package, hm, hab, format_address, modifyCtx, Pure.pure, TM.pure_]

/-- Helper: a non-ok, non-panic result is the uniform diagnostic. -/
theorem TransRes.err_of_not_ok {α : Type} (r : TransRes α)
    (hp : r.isPanic = false) (ho : r.isOk = false) : r.isErr = true := by
  cases r with
  | ok a => simp [TransRes.isOk] at ho
  | err d => rfl
  | rtPanic m => simp [TransRes.isPanic] at hp

/-- Helper: matching name lists have equal lengths. -/
theorem same_tparam_names_length :
    ∀ (tps : List TParam) (stps : List StructTypeParameter),
      same_tparam_names tps stps = true → tps.length = stps.length := by
  intro tps
  induction tps with
  | nil =>
    intro stps h
    cases stps with
    | nil => rfl
    | cons s ss => simp [same_tparam_names] at h
  | cons t ts ih =>
    intro stps h
    cases stps with
    | nil => simp [same_tparam_names] at h
    | cons s ss =>
      simp only [same_tparam_names, Bool.and_eq_true] at h
      simp [ih ss h.2]

/-- Helper: under equal lengths, the type-parameter-name loop of
`validate_method` succeeds exactly on matching ordered names (and never
panics). -/
theorem validate_method_tparam_names_spec :
    ∀ (tps : List TParam) (stps : List StructTypeParameter),
      tps.length = stps.length →
      (validate_method_tparam_names tps stps).isOk = same_tparam_names tps stps
      ∧ (validate_method_tparam_names tps stps).isPanic = false := by
  intro tps
  induction tps with
  | nil =>
    intro stps h
    cases stps with
    | nil => exact ⟨rfl, rfl⟩
    | cons s ss => simp at h
  | cons t ts ih =>
    intro stps h
    cases stps with
    | nil => simp at h
    | cons s ss =>
      simp only [List.length_cons, Nat.succ.injEq] at h
      by_cases he : s.param.user_specified_name.sym = t.user_specified_name.sym
      · simpa [validate_method_tparam_names, same_tparam_names, he] using ih ss h
      · simp [validate_method_tparam_names, same_tparam_names, he, TransRes.isOk,
          TransRes.isPanic]

/-- Helper: when it does not panic, the type-argument loop of
`validate_method` succeeds exactly on a positional prefix match. -/
theorem validate_method_targs_spec :
    ∀ (targs : List BaseType) (stps : List StructTypeParameter),
      (validate_method_targs targs stps).isPanic = false →
      (validate_method_targs targs stps).isOk = targs_match_prefix targs stps := by
  intro targs
  induction targs with
  | nil => intro stps _; rfl
  | cons t ts ih =>
    intro stps hp
    obtain ⟨tloc, tv⟩ := t
    cases tv with
    | Param tp =>
      cases stps with
      | nil => simp [validate_method_targs, TransRes.isPanic] at hp
      | cons s ss =>
        by_cases he : s.param.user_specified_name.sym = tp.user_specified_name.sym
        · have hp' : (validate_method_targs ts ss).isPanic = false := by
            simpa [validate_method_targs, he] using hp
          have h2 : (tp.user_specified_name.sym == s.param.user_specified_name.sym) = true :=
            beq_iff_eq.mpr he.symm
          simpa [validate_method_targs, targs_match_prefix, he, h2] using ih ss hp'
        · have h2 : (tp.user_specified_name.sym == s.param.user_specified_name.sym) = false :=
            beq_eq_false_iff_ne.mpr (fun hh => he hh.symm)
          simp [validate_method_targs, targs_match_prefix, he, h2, TransRes.isOk]
    | Apply tn ta => simp [validate_method_targs, targs_match_prefix, TransRes.isOk]
    | UnresolvedError => simp [validate_method_targs, targs_match_prefix, TransRes.isOk]
    | Unreachable => simp [validate_method_targs, targs_match_prefix, TransRes.isOk]

/-- C3 counterexample: a sibling function that declares the struct's exact
ordered type parameters and *does* declare a qualifying parameter (its
second, `y: &S<T>`) — so it satisfies every condition the claim lists — is
nevertheless rejected by `validate_method`, because the source checks only
the *first* parameter (`x: u64` here). -/
theorem C3_counterexample :
    same_tparam_names exFuncC3.signature.type_parameters exSdefC3.type_parameters = true
    ∧ claim_qualifying_param exCtx exSnameC3 exSdefC3
        (exFuncC3.signature.parameters.getD 1 ("", ⟨0, .Base btU64⟩)) = true
    ∧ (validate_method exCtx exSnameC3 exSdefC3 ⟨0, "f"⟩ exFuncC3).isErr = true := by
  exact ⟨rfl, rfl, rfl⟩

/-- C3 (amended): a struct `method` directive reference passes
`validate_method` exactly when the function declares the same ordered
type-parameter names as the struct and its *first* parameter's
reference-unwrapped type is an application of the struct itself in the
current module, with each provided type argument being the struct's type
parameter at the same position; every rejection is the uniform "not
translatable" diagnostic, and a reference that does not resolve to a
function of the current module is rejected the same way.  (The hypotheses
rule out the two Rust panics on this path: a missing current module, and a
type application carrying more arguments than the struct has parameters.) -/
theorem C3_amended (c : Ctx) (sname : Name) (sdef : StructDefinition) (name : Name)
    (f : Function) (cur : ModuleIdent) (hcm : c.current_module = some cur)
    (htp : (validate_method_targs (first_param_targs f) sdef.type_parameters).isPanic = false) :
    (validate_method c sname sdef name f).isOk = amended_method_valid c sname sdef f
    ∧ (validate_method c sname sdef name f).isPanic = false
    ∧ ((validate_method c sname sdef name f).isOk = false →
        (validate_method c sname sdef name f).isErr = true)
    ∧ (∀ (k : String) (ploc : Loc) (fname : Name) (env : Env) (s : TState)
         (cur2 : ModuleIdent) (pm : ModuleIdent × ModuleDefinition),
       s.c.current_module = some cur2 →
       env.program.modules.find? (fun p => midentValueEq p.1.value cur2.value) = some pm →
       pm.2.functions.find? (fun p => p.1.sym == fname.sym) = none →
       (handle_struct_method_directive sname sdef [(k, .mk ploc (.Name fname))] env s).1
         = .err ⟨fname.loc, "This function does not exist in current module", []⟩) := by
  have main : (validate_method c sname sdef name f).isOk = amended_method_valid c sname sdef f
      ∧ (validate_method c sname sdef name f).isPanic = false := by
    unfold validate_method amended_method_valid
    by_cases hl : f.signature.type_parameters.length = sdef.type_parameters.length
    · have hnames := validate_method_tparam_names_spec f.signature.type_parameters
        sdef.type_parameters hl
      simp only [hl, bne_self_eq_false, Bool.false_eq_true, if_false]
      cases hv : validate_method_tparam_names f.signature.type_parameters
          sdef.type_parameters with
      | rtPanic m => rw [hv] at hnames; simp [TransRes.isPanic] at hnames
      | err d =>
        have hsame : same_tparam_names f.signature.type_parameters
            sdef.type_parameters = false := by
          rw [← hnames.1, hv]; rfl
        simp [hv, Bind.bind, TransRes.bind, hsame, TransRes.isOk, TransRes.isPanic]
      | ok u =>
        have hsame : same_tparam_names f.signature.type_parameters
            sdef.type_parameters = true := by
          rw [← hnames.1, hv]; rfl
        simp only [hv, Bind.bind, TransRes.bind, hsame, Bool.true_and]
        cases hps : f.signature.parameters with
        | nil => simp [TransRes.isOk, TransRes.isPanic]
        | cons p ps =>
          obtain ⟨pn, pty⟩ := p
          rcases pty with ⟨ptyl, ptyv⟩
          cases ptyv with
          | Base b =>
            rcases b with ⟨bl, bv⟩
            cases bv with
            | Param tp => simp [TransRes.isOk, TransRes.isPanic]
            | Apply tn targs =>
              rcases tn with ⟨tnl, tnv⟩
              cases tnv with
              | Builtin bb => simp [TypeName.value, TransRes.isOk, TransRes.isPanic]
              | ModuleType mi sn2 =>
                have hft : first_param_targs f = targs := by
                  simp [first_param_targs, hps]
                rw [hft] at htp
                cases hsm : is_same_module cur mi with
                | false =>
                  simp [TypeName.value, hcm, hsm, TransRes.isOk, TransRes.isPanic]
                | true =>
                  cases hsn : sname.sym == sn2.sym with
                  | false =>
                    simp [TypeName.value, hcm, hsm, hsn, TransRes.isOk, TransRes.isPanic]
                  | true =>
                    have h1 := validate_method_targs_spec targs sdef.type_parameters htp
                    simp [TypeName.value, hcm, hsm, hsn, h1, htp]
            | UnresolvedError => simp [TransRes.isOk, TransRes.isPanic]
            | Unreachable => simp [TransRes.isOk, TransRes.isPanic]
          | Ref rmut b =>
            rcases b with ⟨bl, bv⟩
            cases bv with
            | Param tp => simp [TransRes.isOk, TransRes.isPanic]
            | Apply tn targs =>
              rcases tn with ⟨tnl, tnv⟩
              cases tnv with
              | Builtin bb => simp [TypeName.value, TransRes.isOk, TransRes.isPanic]
              | ModuleType mi sn2 =>
                have hft : first_param_targs f = targs := by
                  simp [first_param_targs, hps]
                rw [hft] at htp
                cases hsm : is_same_module cur mi with
                | false =>
                  simp [TypeName.value, hcm, hsm, TransRes.isOk, TransRes.isPanic]
                | true =>
                  cases hsn : sname.sym == sn2.sym with
                  | false =>
                    simp [TypeName.value, hcm, hsm, hsn, TransRes.isOk, TransRes.isPanic]
                  | true =>
                    have h1 := validate_method_targs_spec targs sdef.type_parameters htp
                    simp [TypeName.value, hcm, hsm, hsn, h1, htp]
            | UnresolvedError => simp [TransRes.isOk, TransRes.isPanic]
            | Unreachable => simp [TransRes.isOk, TransRes.isPanic]
    · have hs : same_tparam_names f.signature.type_parameters sdef.type_parameters = false := by
        cases hq : same_tparam_names f.signature.type_parameters sdef.type_parameters with
        | false => rfl
        | true => exact absurd (same_tparam_names_length _ _ hq) hl
      simp [bne_iff_ne, hl, hs, TransRes.isOk, TransRes.isPanic]
  refine ⟨main.1, main.2, fun ho => TransRes.err_of_not_ok _ main.2 ho, ?_⟩
  intro k ploc fname env s cur2 pm hcm2 hfind hnone
  simp [handle_struct_method_directive, Bind.bind, TM.bind_, readEnv, currentModuleM,
    hcm2, hfind, hnone, derr]

/-- C3 witness: the amended characterization applied to the concrete
module/struct/function used by the counterexample (whose first parameter is
`x: u64`, so validation must reject it even though its second parameter
qualifies). -/
theorem C3_witness :
    (validate_method exCtx exSnameC3 exSdefC3 ⟨0, "f"⟩ exFuncC3).isOk
      = amended_method_valid exCtx exSnameC3 exSdefC3 exFuncC3 :=
  (C3_amended exCtx exSnameC3 exSdefC3 ⟨0, "f"⟩ exFuncC3 exMident rfl rfl).1

/-! ## C4 -/

/-- Helper: a base type that is not a builtin application is not
payload-encodable. -/
theorem extract_base_none_encodable (b : BaseType)
    (h : extract_builtin_from_base_type b = none) : amended_encodable_base b = false := by
  rcases b with ⟨bl, bv⟩
  cases bv with
  | Param tp => simp [amended_encodable_base]
  | Apply tn targs =>
    rcases tn with ⟨tnl, tnv⟩
    cases tnv with
    | Builtin bb => simp [extract_builtin_from_base_type, TypeName.value] at h
    | ModuleType mi sn => simp [amended_encodable_base]
  | UnresolvedError => simp [amended_encodable_base]
  | Unreachable => simp [amended_encodable_base]

/-- Helper: the amended encodability of a builtin application, read off the
extraction. -/
theorem extract_base_some_encodable (b : BaseType) (bb : BuiltinTypeName_)
    (args : List BaseType) (h : extract_builtin_from_base_type b = some (bb, args)) :
    amended_encodable_base b = encodable_of_extract bb args := by
  rcases b with ⟨bl, bv⟩
  cases bv with
  | Param tp => simp [extract_builtin_from_base_type] at h
  | Apply tn targs =>
    rcases tn with ⟨tnl, tnv⟩
    cases tnv with
    | Builtin bb2 =>
      simp only [extract_builtin_from_base_type, TypeName.value, Option.some.injEq,
        Prod.mk.injEq] at h
      rw [← h.1, ← h.2]
      simp [amended_encodable_base, encodable_of_extract]
    | ModuleType mi sn => simp [extract_builtin_from_base_type, TypeName.value] at h
  | UnresolvedError => simp [extract_builtin_from_base_type] at h
  | Unreachable => simp [extract_builtin_from_base_type] at h

/-- Helper: when it does not panic, the vector-element encoder succeeds
exactly on the amended (any-depth) encodable shapes. -/
theorem vec_in_vec_spec : ∀ (t : BaseType),
    (get_ts_handler_for_vector_in_vector t).isPanic = false →
    (get_ts_handler_for_vector_in_vector t).isOk = amended_encodable_base t
  | .mk l (.Apply (.mk l2 (.Builtin .Bool)) args), _ => by
    simp [get_ts_handler_for_vector_in_vector, amended_encodable_base, is_atomic,
      TransRes.isOk]
  | .mk l (.Apply (.mk l2 (.Builtin .U8)) args), _ => by
    simp [get_ts_handler_for_vector_in_vector, amended_encodable_base, is_atomic,
      TransRes.isOk]
  | .mk l (.Apply (.mk l2 (.Builtin .U64)) args), _ => by
    simp [get_ts_handler_for_vector_in_vector, amended_encodable_base, is_atomic,
      TransRes.isOk]
  | .mk l (.Apply (.mk l2 (.Builtin .U128)) args), _ => by
    simp [get_ts_handler_for_vector_in_vector, amended_encodable_base, is_atomic,
      TransRes.isOk]
  | .mk l (.Apply (.mk l2 (.Builtin .Address)) args), _ => by
    simp [get_ts_handler_for_vector_in_vector, amended_encodable_base, is_atomic,
      TransRes.isOk]
  | .mk l (.Apply (.mk l2 (.Builtin .Signer)) args), hp => by
    simp [get_ts_handler_for_vector_in_vector, TransRes.isPanic] at hp
  | .mk l (.Apply (.mk l2 (.Builtin .Vector)) []), hp => by
    simp [get_ts_handler_for_vector_in_vector, TransRes.isPanic] at hp
  | .mk l (.Apply (.mk l2 (.Builtin .Vector)) [inner]), hp => by
    have hp2 : (get_ts_handler_for_vector_in_vector inner).isPanic = false := by
      cases hr : get_ts_handler_for_vector_in_vector inner with
      | ok a => rfl
      | err d => rfl
      | rtPanic m =>
        simp [get_ts_handler_for_vector_in_vector, hr, Bind.bind, TransRes.bind,
          TransRes.isPanic] at hp
    have ih := vec_in_vec_spec inner hp2
    cases hr : get_ts_handler_for_vector_in_vector inner with
    | ok a =>
      rw [hr] at ih
      simp only [TransRes.isOk] at ih
      simp [get_ts_handler_for_vector_in_vector, hr, Bind.bind, TransRes.bind,
        TransRes.isOk, amended_encodable_base, is_atomic, amended_encodable_vec_args, ← ih]
    | err d =>
      rw [hr] at ih
      simp only [TransRes.isOk] at ih
      simp [get_ts_handler_for_vector_in_vector, hr, Bind.bind, TransRes.bind,
        TransRes.isOk, amended_encodable_base, is_atomic, amended_encodable_vec_args, ← ih]
    | rtPanic m => rw [hr] at hp2; simp [TransRes.isPanic] at hp2
  | .mk l (.Apply (.mk l2 (.Builtin .Vector)) (a :: b :: rest)), hp => by
    simp [get_ts_handler_for_vector_in_vector, TransRes.isPanic] at hp
  | .mk l (.Param tp), _ => by
    simp [get_ts_handler_for_vector_in_vector, amended_encodable_base, TransRes.isOk]
  | .mk l (.Apply (.mk l2 (.ModuleType mi sn)) args), _ => by
    simp [get_ts_handler_for_vector_in_vector, amended_encodable_base, TransRes.isOk]
  | .mk l .UnresolvedError, _ => by
    simp [get_ts_handler_for_vector_in_vector, amended_encodable_base, TransRes.isOk]
  | .mk l .Unreachable, _ => by
    simp [get_ts_handler_for_vector_in_vector, amended_encodable_base, TransRes.isOk]

/-- Helper: the single-type unwrap agrees between the extractor and the
amended predicate. -/
theorem amended_payload_unwrap (ty : SingleType) :
    extract_builtin_type ty
        = extract_builtin_from_base_type
            (match ty.value with | .Base b => b | .Ref _ b => b)
    ∧ amended_payload_encodable ty
        = amended_encodable_base
            (match ty.value with | .Base b => b | .Ref _ b => b) := by
  rcases ty with ⟨tl, tv⟩
  cases tv with
  | Base b => exact ⟨rfl, rfl⟩
  | Ref m b => exact ⟨rfl, rfl⟩

/-- Helper: when it does not panic, the parameter encoder succeeds exactly
on the amended payload-encodable parameter types. -/
theorem script_param_spec (nm : String) (ty : SingleType)
    (hp : (get_ts_handler_for_script_function_param nm ty).isPanic = false) :
    (get_ts_handler_for_script_function_param nm ty).isOk = amended_payload_encodable ty := by
  obtain ⟨hex, h23⟩ := amended_payload_unwrap ty
  rw [h23]
  cases hx : extract_builtin_type ty with
  | none =>
    have hb := extract_base_none_encodable _ (hex.symm.trans hx)
    simp [get_ts_handler_for_script_function_param, hx, TransRes.isOk, hb]
  | some pr =>
    obtain ⟨bb, args⟩ := pr
    have hb := extract_base_some_encodable _ bb args (hex.symm.trans hx)
    rw [hb]
    cases bb with
    | Bool => simp [get_ts_handler_for_script_function_param, hx, encodable_of_extract,
        is_atomic, TransRes.isOk]
    | Address => simp [get_ts_handler_for_script_function_param, hx, encodable_of_extract,
        is_atomic, TransRes.isOk]
    | U8 => simp [get_ts_handler_for_script_function_param, hx, encodable_of_extract,
        is_atomic, TransRes.isOk]
    | U64 => simp [get_ts_handler_for_script_function_param, hx, encodable_of_extract,
        is_atomic, TransRes.isOk]
    | U128 => simp [get_ts_handler_for_script_function_param, hx, encodable_of_extract,
        is_atomic, TransRes.isOk]
    | Signer =>
      rw [show (get_ts_handler_for_script_function_param nm ty)
          = .rtPanic "internal error: entered unreachable code" from by
        simp [get_ts_handler_for_script_function_param, hx]] at hp
      simp [TransRes.isPanic] at hp
    | Vector =>
      cases args with
      | nil =>
        rw [show (get_ts_handler_for_script_function_param nm ty)
            = .rtPanic "assertion failed: ty_args.len() == 1" from by
          simp [get_ts_handler_for_script_function_param, hx]] at hp
        simp [TransRes.isPanic] at hp
      | cons arg0 argrest =>
        cases argrest with
        | cons a2 arest =>
          rw [show (get_ts_handler_for_script_function_param nm ty)
              = .rtPanic "assertion failed: ty_args.len() == 1" from by
            simp [get_ts_handler_for_script_function_param, hx]] at hp
          simp [TransRes.isPanic] at hp
        | nil =>
          cases hix : extract_builtin_from_base_type arg0 with
          | none =>
            have hb0 := extract_base_none_encodable _ hix
            simp [get_ts_handler_for_script_function_param, hx, hix, TransRes.isOk,
              encodable_of_extract, is_atomic, amended_encodable_vec_args, hb0]
          | some ipr =>
            obtain ⟨ib, iargs⟩ := ipr
            have hb0 := extract_base_some_encodable _ ib iargs hix
            cases ib with
            | Bool =>
              simp [get_ts_handler_for_script_function_param, hx, hix,
                encodable_of_extract, is_atomic, amended_encodable_vec_args,
                TransRes.isOk, hb0]
            | Address =>
              simp [get_ts_handler_for_script_function_param, hx, hix,
                encodable_of_extract, is_atomic, amended_encodable_vec_args,
                TransRes.isOk, hb0]
            | U8 =>
              simp [get_ts_handler_for_script_function_param, hx, hix,
                encodable_of_extract, is_atomic, amended_encodable_vec_args,
                TransRes.isOk, hb0]
            | U64 =>
              simp [get_ts_handler_for_script_function_param, hx, hix,
                encodable_of_extract, is_atomic, amended_encodable_vec_args,
                TransRes.isOk, hb0]
            | U128 =>
              simp [get_ts_handler_for_script_function_param, hx, hix,
                encodable_of_extract, is_atomic, amended_encodable_vec_args,
                TransRes.isOk, hb0]
            | Signer =>
              rw [show (get_ts_handler_for_script_function_param nm ty)
                  = .rtPanic "internal error: entered unreachable code" from by
                simp [get_ts_handler_for_script_function_param, hx, hix]] at hp
              simp [TransRes.isPanic] at hp
            | Vector =>
              cases iargs with
              | nil =>
                rw [show (get_ts_handler_for_script_function_param nm ty)
                    = .rtPanic "assertion failed: inner_ty_args.len() == 1" from by
                  simp [get_ts_handler_for_script_function_param, hx, hix]] at hp
                simp [TransRes.isPanic] at hp
              | cons i1 irest =>
                cases irest with
                | cons i2 ir =>
                  rw [show (get_ts_handler_for_script_function_param nm ty)
                      = .rtPanic "assertion failed: inner_ty_args.len() == 1" from by
                    simp [get_ts_handler_for_script_function_param, hx, hix]] at hp
                  simp [TransRes.isPanic] at hp
                | nil =>
                  have hgoalr : encodable_of_extract .Vector [arg0]
                      = amended_encodable_base i1 := by
                    simp [encodable_of_extract, is_atomic, amended_encodable_vec_args, hb0]
                  rw [hgoalr]
                  have hp2 : (get_ts_handler_for_vector_in_vector i1).isPanic = false := by
                    cases hr : get_ts_handler_for_vector_in_vector i1 with
                    | ok a => rfl
                    | err d => rfl
                    | rtPanic m =>
                      simp [get_ts_handler_for_script_function_param, hx, hix, hr,
                        Bind.bind, TransRes.bind, TransRes.isPanic] at hp
                  have ih := vec_in_vec_spec i1 hp2
                  cases hr : get_ts_handler_for_vector_in_vector i1 with
                  | ok a =>
                    rw [hr] at ih
                    simp only [TransRes.isOk] at ih
                    simp [get_ts_handler_for_script_function_param, hx, hix, hr,
                      Bind.bind, TransRes.bind, TransRes.isOk, ← ih]
                  | err d =>
                    rw [hr] at ih
                    simp only [TransRes.isOk] at ih
                    simp [get_ts_handler_for_script_function_param, hx, hix, hr,
                      Bind.bind, TransRes.bind, TransRes.isOk, ← ih]
                  | rtPanic m => rw [hr] at hp2; simp [TransRes.isPanic] at hp2

/-- C4 counterexample: a parameter of type `vector<vector<vector<u64>>>` (a
*three*-level vector of atomics) is not payload-encodable by the claim's
one/two-level test, yet the source's shape test accepts it and the function
emitter emits the payload builder for an entry function carrying it — so the
claimed "if and only if" fails. -/
theorem C4_counterexample :
    claim_payload_encodable (⟨0, .Base (btVec (btVec (btVec btU64)))⟩ : SingleType) = false
    ∧ script_function_has_valid_parameter sigC4 = .ok true
    ∧ ((function_write_ts ⟨0, "f"⟩ exFuncC4 exEnv exState).2.1.w.lines.contains
        "export function buildPayload_f (") = true := by
  refine ⟨rfl, rfl, ?_⟩
  simp [function_write_ts, exFuncC4, sigC4, btVec, btU64, exEnv, exState, exCtx, exConfig,
    exMident, isAsync, write_parameters, write_parameters_loop, type_to_tstype,
    single_type_to_tstype, base_type_to_tstype, builtin_type_name_term, write_func_body,
    identify_declared_vars_in_block, stmts_write_ts, script_function_has_valid_parameter,
    script_function_valid_params, get_ts_handler_for_script_function_param,
    get_ts_handler_for_vector_in_vector, extract_builtin_type, extract_builtin_from_base_type,
    TypeName.value, write_payload_args, handle_function_directives, currentModuleM, readEnv,
    modifyCtx, liftTR, emitArtifact, wWrite, wWriteln, wNewLine, wIncIndent, wDecIndent,
    shortBlock, block_write_with, pad, TsgenWriter.writeRaw, TsgenWriter.writelnRaw,
    TsgenWriter.newLineRaw, TsgenWriter.new, Bind.bind, Pure.pure, TM.bind_, TM.pure_,
    rename, quote, format_address_hex, format_address, toHexLiteral, is_type_signer,
    is_base_type_signer, check_test, format_function_name, TransRes.isOk, List.contains,
    BaseType.value, BaseType.loc, Exp.term, is_exp_unit, is_empty_lvalue_list,
    TransRes.bind]

/-- Helper: the parameter loop of the shape test, characterized under the
no-panic hypothesis. -/
theorem script_params_all_spec :
    ∀ (ps : List (String × SingleType)),
      (∀ p ∈ ps, (get_ts_handler_for_script_function_param p.1 p.2).isPanic = false) →
      script_function_valid_params ps
        = .ok (ps.all (fun p => is_type_signer p.2 || amended_payload_encodable p.2)) := by
  intro ps
  induction ps with
  | nil => intro _; rfl
  | cons p ps ih =>
    intro hp
    have hp0 := hp p (by simp)
    have hps : ∀ q ∈ ps, (get_ts_handler_for_script_function_param q.1 q.2).isPanic = false :=
      fun q hq => hp q (by simp [hq])
    obtain ⟨v, ty⟩ := p
    by_cases hs : is_type_signer ty = true
    · simp only [script_function_valid_params, hs, if_true, List.all_cons, Bool.true_or,
        Bool.true_and]
      exact ih hps
    · have hs' : is_type_signer ty = false := by
        cases hv : is_type_signer ty with
        | false => rfl
        | true => exact absurd hv hs
      have hspec := script_param_spec v ty hp0
      cases hr : get_ts_handler_for_script_function_param v ty with
      | ok a =>
        rw [hr] at hspec
        simp only [TransRes.isOk] at hspec
        simp only [script_function_valid_params, hs', Bool.false_eq_true, if_false, hr,
          List.all_cons, ← hspec, Bool.false_or, Bool.true_and]
        exact ih hps
      | err d =>
        rw [hr] at hspec
        simp only [TransRes.isOk] at hspec
        simp only [script_function_valid_params, hs', Bool.false_eq_true, if_false, hr,
          List.all_cons, ← hspec, Bool.false_or, Bool.false_and]
      | rtPanic m => rw [hr] at hp0; simp [TransRes.isPanic] at hp0

/-- C4 (amended): for an entry function, the payload-builder shape test
passed to the emitter succeeds exactly when every non-signer parameter is an
atomic builtin (bool, address, u8, u64, u128) or a vector of atomics nested
to *any* depth — not merely one or two levels.  (The hypothesis rules out
the Rust panics of the encoder: a signer nested inside a vector, or a vector
application of wrong arity.) -/
theorem C4_amended (sig : FunctionSignature)
    (hp : ∀ p ∈ sig.parameters,
      (get_ts_handler_for_script_function_param p.1 p.2).isPanic = false) :
    script_function_has_valid_parameter sig
      = .ok (sig.parameters.all
          (fun p => is_type_signer p.2 || amended_payload_encodable p.2)) :=
  script_params_all_spec sig.parameters hp

/-- C4 witness: the amended shape test evaluated on the three-level-vector
signature. -/
theorem C4_witness :
    script_function_has_valid_parameter sigC4
      = .ok (sigC4.parameters.all
          (fun p => is_type_signer p.2 || amended_payload_encodable p.2)) :=
  C4_amended sigC4 (by intro p hq; simp [sigC4] at hq; subst hq; rfl)

/-- C9 witness: the cross-package arm at concrete addresses `A`/`B`, both
with numeric value 1. -/
theorem C9_witness :
    format_qualified_name ⟨3, ⟨.Numerical (some "B") 1, "n"⟩⟩ "S" exEnv
        ⟨TsgenWriter.new, ⟨some ⟨0, ⟨.Numerical (some "A") 1, "m"⟩⟩, none, ∅, ∅⟩⟩
      = (.ok (capitalize "B" ++ "." ++ capitalize "n" ++ "." ++ rename "S"),
         ⟨TsgenWriter.new, ⟨some ⟨0, ⟨.Numerical (some "A") 1, "m"⟩⟩, none, ∅, insert "B" ∅⟩⟩, []) :=
  C9_package_identity.2 "A" "B" "m" "n" "S" 1 0 3 none ∅ ∅ TsgenWriter.new exEnv
    (by decide) (by decide)

/-- C6: for every translated conditional, (1) the empty-true-branch test of
the translator holds exactly when the true branch is empty or a single
discarded unit expression; (2) when the true branch is empty in that sense
and the false branch is non-empty, the emitted statement tests the negated
condition and contains only the translated false branch; (3) when the true
branch is non-empty, the condition is emitted unnegated with the true
branch, and the false branch follows exactly when it has statements. -/
theorem C6_conditional_translation :
    (∀ (b : Block), is_empty_block b = true ↔ spec_empty_true_branch b)
    ∧ (∀ (loc : Loc) (cond : Exp) (tb eb : Block),
        spec_empty_true_branch tb → eb ≠ [] →
        statement_write_ts (.mk loc (.IfElse cond tb eb))
          = (do
              wWrite ("if (!" ++ cond.term ++ ") ")
              block_write_ts eb))
    ∧ (∀ (loc : Loc) (cond : Exp) (tb eb : Block),
        ¬ spec_empty_true_branch tb →
        statement_write_ts (.mk loc (.IfElse cond tb eb))
          = (do
              wWrite ("if (" ++ cond.term ++ ") ")
              block_write_ts tb
              if eb.length > 0 then do
                wWrite "else"
                block_write_ts eb
              else pure ())) := by
  have h1 : ∀ (b : Block), is_empty_block b = true ↔ spec_empty_true_branch b := by
    intro b
    rcases b with _ | ⟨⟨sloc, sv⟩, rest⟩
    · simp [is_empty_block, spec_empty_true_branch]
    · rcases rest with _ | ⟨s2, rest2⟩
      · cases sv with
        | Command cmd =>
          obtain ⟨cloc, cv⟩ := cmd
          cases cv <;>
            simp [is_empty_block, spec_empty_true_branch, Statement.value,
              Command.value, and_assoc]
        | IfElse cond ib eb =>
          simp [is_empty_block, spec_empty_true_branch, Statement.value]
        | While p cnd blk =>
          simp [is_empty_block, spec_empty_true_branch, Statement.value]
        | Loop hb blk =>
          simp [is_empty_block, spec_empty_true_branch, Statement.value]
      · simp [is_empty_block, spec_empty_true_branch]
  refine ⟨h1, ?_, ?_⟩
  · intro loc cond tb eb hemp hne
    have he : is_empty_block tb = true := (h1 tb).mpr hemp
    simp [statement_write_ts, he, block_write_ts]
  · intro loc cond tb eb hne
    have he : is_empty_block tb = false := by
      cases hcase : is_empty_block tb
      · rfl
      · exact absurd ((h1 tb).mp hcase) hne
    simp [statement_write_ts, he, block_write_ts]

/-- C6 witness: both conditional shapes at concrete blocks — an empty true
branch with a one-statement false branch, and a one-statement true branch
with an empty false branch. -/
theorem C6_witness :
    (statement_write_ts (.mk 0 (.IfElse exCondC6 [] [exRetStmtC6]))
       = (do
           wWrite ("if (!" ++ exCondC6.term ++ ") ")
           block_write_ts [exRetStmtC6]))
    ∧ (statement_write_ts (.mk 0 (.IfElse exCondC6 [exRetStmtC6] []))
       = (do
           wWrite ("if (" ++ exCondC6.term ++ ") ")
           block_write_ts [exRetStmtC6]
           if ([] : Block).length > 0 then do
             wWrite "else"
             block_write_ts ([] : Block)
           else pure ())) :=
  ⟨C6_conditional_translation.2.1 0 exCondC6 [] [exRetStmtC6] (Or.inl rfl)
     (by simp),
   C6_conditional_translation.2.2 0 exCondC6 [exRetStmtC6] []
     (by simp [spec_empty_true_branch, exRetStmtC6])⟩

/-- C10: a `cmd` directive on an entry function whose `desc` sub-attribute
is assigned a byte-string literal with invalid UTF-8 bytes does not fail —
the command is still recorded, with the empty string as its description (and
nothing is written). -/
theorem C10_invalid_utf8_desc (fname : Name) (f : Function) (dn : Name)
    (bytes : List Nat) (aloc vloc bloc : Loc) (env : Env) (s : TState)
    (mi0 : ModuleIdent)
    (hentry : f.entry = true) (hcm : s.c.current_module = some mi0)
    (hinv : utf8DecodeBytes bytes = none) :
    handle_function_cmd_directive fname f
        (some [("desc",
          .mk aloc (.Assigned dn (.mk vloc (.Value (.mk bloc (.Bytearray bytes))))))])
        env s
      = (.ok (), s, [.cmdRecord mi0 fname f (some "")]) := by
  simp [handle_function_cmd_directive, hentry, handle_function_cmd_params,
    extract_attribute_value_string, hinv, currentModuleM, hcm, emitArtifact,
    Bind.bind, TM.bind_, Pure.pure, TM.pure_]

/-- C10 witness: the byte `0xFF` alone is not valid UTF-8; the command of an
entry function carrying it as its `desc` is recorded with the empty
description. -/
theorem C10_witness :
    (⟨[], true, sigC4, ⟨0, .Defined [] []⟩⟩ : Function).entry = true
    ∧ exState.c.current_module = some exMident
    ∧ utf8DecodeBytes [255] = none
    ∧ handle_function_cmd_directive ⟨0, "f"⟩ ⟨[], true, sigC4, ⟨0, .Defined [] []⟩⟩
        (some [("desc", .mk 1 (.Assigned ⟨1, "desc"⟩
          (.mk 2 (.Value (.mk 3 (.Bytearray [255]))))))])
        exEnv exState
      = (.ok (), exState,
         [.cmdRecord exMident ⟨0, "f"⟩ ⟨[], true, sigC4, ⟨0, .Defined [] []⟩⟩ (some "")]) :=
  ⟨rfl, rfl, rfl,
   C10_invalid_utf8_desc ⟨0, "f"⟩ ⟨[], true, sigC4, ⟨0, .Defined [] []⟩⟩ ⟨1, "desc"⟩
     [255] 1 2 3 exEnv exState exMident rfl rfl rfl⟩

mutual
theorem identify_lvalue_spec : ∀ (lv : LValue) (d : Finset String),
    identify_declared_vars_in_lvalue lv d = d ∪ spec_destructured_lvalue lv
  | .mk lloc .Ignore, d => by
    simp [identify_declared_vars_in_lvalue, spec_destructured_lvalue]
  | .mk lloc (.Var v ty), d => by
    simp [identify_declared_vars_in_lvalue, spec_destructured_lvalue]
  | .mk lloc (.Unpack sn tys fields), d => by
    simp [identify_declared_vars_in_lvalue, spec_destructured_lvalue,
      identify_fields_spec fields d]

theorem identify_fields_spec : ∀ (fields : List (Name × LValue)) (d : Finset String),
    identify_declared_vars_in_unpack_fields fields d
      = d ∪ spec_destructured_fields fields
  | [], d => by
    simp [identify_declared_vars_in_unpack_fields, spec_destructured_fields]
  | (fn, .mk lloc .Ignore) :: rest, d => by
    simp [identify_declared_vars_in_unpack_fields, spec_destructured_fields,
      identify_declared_vars_in_lvalue, spec_destructured_lvalue,
      identify_fields_spec rest d]
  | (fn, .mk lloc (.Var v ty)) :: rest, d => by
    simp [identify_declared_vars_in_unpack_fields, spec_destructured_fields,
      spec_destructured_lvalue, identify_fields_spec rest,
      Finset.insert_eq, Finset.union_assoc, Finset.union_comm,
      Finset.union_left_comm]
  | (fn, .mk lloc (.Unpack sn tys fields2)) :: rest, d => by
    simp [identify_declared_vars_in_unpack_fields, spec_destructured_fields,
      identify_lvalue_spec (.mk lloc (.Unpack sn tys fields2)) d,
      identify_fields_spec rest,
      Finset.union_assoc]
end

theorem identify_lvalues_foldl_spec (lvs : List LValue) (d : Finset String) :
    lvs.foldl (fun d lv => identify_declared_vars_in_lvalue lv d) d
      = d ∪ spec_destructured_lvalues lvs := by
  induction lvs generalizing d with
  | nil => simp [spec_destructured_lvalues]
  | cons lv rest ih =>
    simp [spec_destructured_lvalues, identify_lvalue_spec lv d, ih,
      Finset.union_assoc]

theorem identify_cmd_spec (cmd : Command) (d : Finset String) :
    identify_declared_vars_in_cmd cmd d = d ∪ spec_destructured_cmd cmd := by
  obtain ⟨cloc, cv⟩ := cmd
  cases cv <;>
    simp [identify_declared_vars_in_cmd, spec_destructured_cmd,
      identify_lvalues_foldl_spec]

mutual
theorem identify_stmt_spec : ∀ (st : Statement) (d : Finset String),
    identify_declared_vars_in_stmt st d = d ∪ spec_destructured_stmt st
  | .mk sloc (.Command cmd), d => by
    simp [identify_declared_vars_in_stmt, spec_destructured_stmt,
      identify_cmd_spec]
  | .mk sloc (.IfElse cond ib eb), d => by
    simp [identify_declared_vars_in_stmt, spec_destructured_stmt,
      identify_block_spec ib d, identify_block_spec eb,
      Finset.union_assoc]
  | .mk sloc (.While pre cond blk), d => by
    simp [identify_declared_vars_in_stmt, spec_destructured_stmt,
      identify_block_spec blk d, identify_block_spec pre,
      Finset.union_assoc, Finset.union_comm, Finset.union_left_comm]
  | .mk sloc (.Loop hb blk), d => by
    simp [identify_declared_vars_in_stmt, spec_destructured_stmt,
      identify_block_spec blk d]

theorem identify_block_spec : ∀ (b : Block) (d : Finset String),
    identify_declared_vars_in_block b d = d ∪ spec_destructured_block b
  | [], d => by
    simp [identify_declared_vars_in_block, spec_destructured_block]
  | s :: rest, d => by
    simp [identify_declared_vars_in_block, spec_destructured_block,
      identify_stmt_spec s d, identify_block_spec rest,
      Finset.union_assoc]
end

/-- C5: for every defined function body the translator first emits the
braces and, immediately at block entry and before any translated statement,
a single uninitialized multi-name `let` listing exactly the incoming locals
that are never the target of a destructuring bind anywhere in the block
(nested blocks included; non-`Assign` commands bind nothing) — and nothing
else; when that list is empty the hoist line is omitted entirely.  The first
conjunct identifies the collected set with the spec-side destructuring-bind
set; the second replays `write_func_body` as exactly that program. -/
theorem C5_hoisted_locals :
    (∀ (block : Block),
        identify_declared_vars_in_block block ∅ = spec_destructured_block block)
    ∧ (∀ (block : Block) (new_vars : List String) (env : Env) (s : TState),
        write_func_body block new_vars env s
          = (do
              wWriteln "\x7b"
              wIncIndent
              (let hoisted := new_vars.filter
                  (fun v => v ∉ spec_destructured_block block)
               if hoisted ≠ [] then
                 wWriteln ("let " ++ String.intercalate ", "
                   (hoisted.map rename) ++ ";")
               else pure ())
              stmts_write_ts block
              wDecIndent
              wWriteln "\x7d") env s) := by
  have hb : ∀ (block : Block),
      identify_declared_vars_in_block block ∅ = spec_destructured_block block := by
    intro block
    simp [identify_block_spec block ∅]
  refine ⟨hb, ?_⟩
  intro block new_vars env s
  simp only [write_func_body, hb block, gt_iff_lt, List.length_pos, ne_eq]

/-- C7: translating the same module twice is insensitive to everything the
per-module reset clears — whenever the two starting contexts agree on the
one surviving field (the current function signature), the two runs return
the same result (filename and full rendered content), the same final
same-package and cross-package import sets, and the same recorded artifacts;
and the import lists are rendered from each `BTreeSet` in sorted,
duplicate-free order (cross-package lines first, then same-package lines),
once per module. -/
theorem C7_stable_imports :
    (∀ (env : Env) (mident : ModuleIdent) (mdef : ModuleDefinition)
        (s1 s2 : TState),
        s1.c.current_function_signature = s2.c.current_function_signature →
        (translate_module mident mdef env s1).1
            = (translate_module mident mdef env s2).1
          ∧ (translate_module mident mdef env s1).2.1.c.same_package_imports
              = (translate_module mident mdef env s2).2.1.c.same_package_imports
          ∧ (translate_module mident mdef env s1).2.1.c.package_imports
              = (translate_module mident mdef env s2).2.1.c.package_imports
          ∧ (translate_module mident mdef env s1).2.2
              = (translate_module mident mdef env s2).2.2)
    ∧ (∀ (c : Ctx),
        ((c.package_imports.sort (· ≤ ·)).Sorted (· ≤ ·)
          ∧ (c.package_imports.sort (· ≤ ·)).Nodup
          ∧ (c.same_package_imports.sort (· ≤ ·)).Sorted (· ≤ ·)
          ∧ (c.same_package_imports.sort (· ≤ ·)).Nodup)
        ∧ import_lines c
            = ((c.package_imports.sort (· ≤ ·)).map (fun package_name =>
                "import * as " ++ capitalize package_name
                  ++ " from \"../" ++ package_name ++ "\";"))
              ++ ((c.same_package_imports.sort (· ≤ ·)).map (fun module_name =>
                "import * as " ++ capitalize module_name
                  ++ " from \"./" ++ module_name ++ "\";"))) := by
  constructor
  · intro env mident mdef s1 s2 hsig
    have hreset : reset_for_module s1.c mident = reset_for_module s2.c mident := by
      simp [reset_for_module, hsig]
    simp only [translate_module, Bind.bind, TM.bind_, modifyCtx, to_ts_string,
      Pure.pure, TM.pure_, hreset]
    rcases hm : module_write_ts mident mdef env
        { w := TsgenWriter.new, c := reset_for_module s2.c mident } with ⟨r, st, arts⟩
    rcases r with a | d | m <;> simp [hm]
  · intro c
    exact ⟨⟨Finset.sort_sorted _ _, Finset.sort_nodup _ _,
      Finset.sort_sorted _ _, Finset.sort_nodup _ _⟩, rfl⟩

/-- C7 witness: two starting states with different writers and the same
(empty) current function signature translate the empty example module to
identical results, import sets, and artifacts. -/
theorem C7_witness :
    exState.c.current_function_signature
        = (⟨TsgenWriter.new.writeRaw "x", exCtx⟩ : TState).c.current_function_signature
    ∧ ((translate_module exMident exMdefC7 exEnv exState).1
          = (translate_module exMident exMdefC7 exEnv
              ⟨TsgenWriter.new.writeRaw "x", exCtx⟩).1
        ∧ (translate_module exMident exMdefC7 exEnv exState).2.1.c.same_package_imports
            = (translate_module exMident exMdefC7 exEnv
                ⟨TsgenWriter.new.writeRaw "x", exCtx⟩).2.1.c.same_package_imports
        ∧ (translate_module exMident exMdefC7 exEnv exState).2.1.c.package_imports
            = (translate_module exMident exMdefC7 exEnv
                ⟨TsgenWriter.new.writeRaw "x", exCtx⟩).2.1.c.package_imports
        ∧ (translate_module exMident exMdefC7 exEnv exState).2.2
            = (translate_module exMident exMdefC7 exEnv
                ⟨TsgenWriter.new.writeRaw "x", exCtx⟩).2.2) :=
  ⟨rfl, C7_stable_imports.1 exEnv exMident exMdefC7 exState
    ⟨TsgenWriter.new.writeRaw "x", exCtx⟩ rfl⟩

theorem string_data_append (a b : String) : (a ++ b).data = a.data ++ b.data := rfl

theorem string_data_empty : ("" : String).data = [] := rfl

theorem string_eq_of_data {s t : String} (h : s.data = t.data) : s = t := by
  cases s
  cases t
  exact congrArg String.mk h

theorem intercalate_nil (sep : String) : String.intercalate sep [] = "" := rfl

theorem intercalate_singleton (sep x : String) : String.intercalate sep [x] = x := rfl

theorem intercalate_go_pull (sep : String) : ∀ (l : List String) (a b : String),
    String.intercalate.go (a ++ b) sep l = a ++ String.intercalate.go b sep l := by
  intro l
  induction l with
  | nil => intro a b; simp [String.intercalate.go]
  | cons y ys ih =>
    intro a b
    simp only [String.intercalate.go, String.append_assoc, ih]

theorem intercalate_cons_cons (sep x y : String) (ys : List String) :
    String.intercalate sep (x :: y :: ys) = x ++ sep ++ String.intercalate sep (y :: ys) := by
  have h := intercalate_go_pull sep ys (x ++ sep) y
  simp only [String.intercalate, String.intercalate.go, String.append_assoc] at h ⊢
  simp [h, String.append_assoc]

theorem intercalate_append_ne (sep : String) : ∀ (xs ys : List String),
    xs ≠ [] → ys ≠ [] →
    String.intercalate sep (xs ++ ys)
      = String.intercalate sep xs ++ sep ++ String.intercalate sep ys := by
  intro xs
  induction xs with
  | nil => intro ys h; exact absurd rfl h
  | cons x xs ih =>
    intro ys hx hy
    rcases xs with _ | ⟨x2, xs2⟩
    · rcases ys with _ | ⟨y, ys2⟩
      · exact absurd rfl hy
      · have h := intercalate_cons_cons sep x y ys2
        simpa [String.intercalate, String.intercalate.go] using h
    · have h := ih ys (by simp) hy
      simp only [List.cons_append] at h ⊢
      rw [intercalate_cons_cons, h, intercalate_cons_cons]
      simp [String.append_assoc]

theorem intercalate_ne_nil (l : List String) (hl : l ≠ [])
    (h : ∀ x ∈ l, x ≠ "") : String.intercalate ", " l ≠ "" := by
  rcases l with _ | ⟨x, xs⟩
  · exact absurd rfl hl
  · rcases xs with _ | ⟨y, ys⟩
    · have hx : x ≠ "" := h x (by simp)
      simpa [String.intercalate, String.intercalate.go] using hx
    · rw [intercalate_cons_cons]
      intro hc
      have hd := congrArg String.data hc
      simp [string_data_append, string_data_empty] at hd

/-- C2 counterexample: on a concrete generic native function with one
ordinary parameter, the emitted delegation line passes the runtime context
`$c` *before* the type-tag array; the line in the order the claim describes
(type-tag array before the context value) is not produced. -/
theorem C2_counterexample :
    (function_write_ts ⟨0, "f"⟩ exFuncC2 exEnv exState).2.1.w.lines.contains
        "  return $.A_m_f(a, $c, [$p[0]]);" = true
    ∧ (function_write_ts ⟨0, "f"⟩ exFuncC2 exEnv exState).2.1.w.lines.contains
        "  return $.A_m_f(a, [$p[0]], $c);" = false := by
  constructor <;>
    simp [function_write_ts, exFuncC2, sigC2, btU64, exEnv, exState, exCtx, exConfig,
      exMident, exTP, isAsync, write_parameters, write_parameters_loop, type_to_tstype,
      single_type_to_tstype, base_type_to_tstype, builtin_type_name_term,
      native_delegation_line, script_function_has_valid_parameter,
      script_function_valid_params, handle_function_directives, currentModuleM, readEnv,
      modifyCtx, liftTR, emitArtifact, wWrite, wWriteln, wNewLine, wIncIndent, wDecIndent,
      shortBlock, pad, TsgenWriter.writeRaw, TsgenWriter.writelnRaw,
      TsgenWriter.newLineRaw, TsgenWriter.new, Bind.bind, Pure.pure, TM.bind_, TM.pure_,
      rename, format_address, toHexLiteral, is_type_signer,
      is_base_type_signer, check_test, TransRes.isOk, List.contains,
      BaseType.value, BaseType.loc, TransRes.bind, String.intercalate,
      String.intercalate.go, List.range_succ, List.range_zero] <;>
    decide

/-- C2 (amended): for every native function (with non-empty parameter
names, as any Move identifier is) the delegation line calls the runtime
entry point named by the fully qualified identity (address, module,
function name) with an argument list that is exactly the ordinary
arguments in declaration order, then the runtime context value `$c`, then —
only when the function is generic — the runtime type-tag array, joined by
commas in that order.  (The claim placed the type-tag array before the
context value; the source emits `$c` first.) -/
theorem C2_amended (name : Name) (func : Function) (mident : ModuleIdent)
    (h : ∀ p ∈ func.signature.parameters, rename p.1 ≠ "") :
    native_delegation_line name func mident
      = "return $." ++ format_address mident.value.address ++ "_"
          ++ mident.value.module ++ "_" ++ name.sym ++ "("
        ++ String.intercalate ", "
            ((func.signature.parameters.map (fun p => rename p.1))
              ++ ["$c"]
              ++ (if func.signature.type_parameters.length == 0 then []
                  else ["[" ++ String.intercalate ", "
                    ((List.range func.signature.type_parameters.length).map
                      (fun u => "$p[" ++ toString u ++ "]")) ++ "]"]))
        ++ ");" := by
  have hmem : ∀ z ∈ func.signature.parameters.map (fun p => rename p.1), z ≠ "" := by
    intro z hz
    obtain ⟨p, hp, rfl⟩ := List.mem_map.mp hz
    exact h p hp
  simp only [native_delegation_line]
  rcases hP : func.signature.parameters.map (fun p => rename p.1) with _ | ⟨x, xs⟩ <;>
    rw [hP]
  · cases h0 : func.signature.type_parameters.length == 0 with
    | true =>
      simp [h0, intercalate_nil, intercalate_singleton]
    | false =>
      simp [h0, intercalate_nil, intercalate_singleton, intercalate_cons_cons]
      all_goals (apply string_eq_of_data; simp [string_data_append, string_data_empty])
  · rw [hP] at hmem
    have hne := intercalate_ne_nil (x :: xs) (by simp) hmem
    have hbeq : (String.intercalate ", " (x :: xs) == "") = false :=
      beq_eq_false_iff_ne.mpr hne
    cases h0 : func.signature.type_parameters.length == 0 with
    | true =>
      simp only [h0, if_true, List.append_nil]
      rw [intercalate_append_ne ", " (x :: xs) ["$c"] (by simp) (by simp)]
      simp only [hbeq, Bool.false_eq_true, if_false, intercalate_singleton]
      all_goals (apply string_eq_of_data; simp [string_data_append, string_data_empty])
    | false =>
      simp only [h0, Bool.false_eq_true, if_false, List.append_assoc,
        List.singleton_append]
      rw [intercalate_append_ne ", " (x :: xs)
        ["$c", "[" ++ String.intercalate ", "
          ((List.range func.signature.type_parameters.length).map
            (fun u => "$p[" ++ toString u ++ "]")) ++ "]"] (by simp) (by simp)]
      simp only [hbeq, Bool.false_eq_true, if_false, intercalate_cons_cons,
        intercalate_singleton]
      all_goals (apply string_eq_of_data; simp [string_data_append, string_data_empty])

/-- C2 witness: the amended delegation-line shape evaluated on the concrete
generic native function. -/
theorem C2_witness :
    (∀ p ∈ exFuncC2.signature.parameters, rename p.1 ≠ "")
    ∧ native_delegation_line ⟨0, "f"⟩ exFuncC2 exMident
      = "return $." ++ format_address exMident.value.address ++ "_"
          ++ exMident.value.module ++ "_" ++ (⟨0, "f"⟩ : Name).sym ++ "("
        ++ String.intercalate ", "
            ((exFuncC2.signature.parameters.map (fun p => rename p.1))
              ++ ["$c"]
              ++ (if exFuncC2.signature.type_parameters.length == 0 then []
                  else ["[" ++ String.intercalate ", "
                    ((List.range exFuncC2.signature.type_parameters.length).map
                      (fun u => "$p[" ++ toString u ++ "]")) ++ "]"]))
        ++ ");" :=
  ⟨by intro p hp; simp [exFuncC2, sigC2] at hp; subst hp; simp [rename],
   C2_amended ⟨0, "f"⟩ exFuncC2 exMident
     (by intro p hp; simp [exFuncC2, sigC2] at hp; subst hp; simp [rename])⟩

theorem format_qualified_name_w (mi : ModuleIdent) (nm : String) (env : Env) (s : TState) :
    ((format_qualified_name mi nm env s).2.1).w = s.w := by
  rcases hcm : s.c.current_module with _ | cur
  · simp [format_qualified_name, currentModuleM, hcm, Bind.bind, TM.bind_, modifyCtx,
      Pure.pure, TM.pure_]
  · simp only [format_qualified_name, currentModuleM, hcm, Bind.bind, TM.bind_, modifyCtx,
      Pure.pure, TM.pure_]
    split_ifs <;> simp [TM.pure_, TM.bind_, modifyCtx]

theorem base_type_to_tstype_w : ∀ (b : BaseType) (env : Env) (s : TState),
    ((base_type_to_tstype b env s).2.1).w = s.w
  | .mk l (.Param tp), env, s => by
    simp [base_type_to_tstype, Pure.pure, TM.pure_]
  | .mk l (.Apply (.mk tl (.Builtin .Vector)) [inner]), env, s => by
    have ih := base_type_to_tstype_w inner env s
    rcases hin : base_type_to_tstype inner env s with ⟨r, s1, a⟩
    rw [hin] at ih
    simp only [] at ih
    rcases r with v | d | m <;>
      simp [base_type_to_tstype, Bind.bind, TM.bind_, hin, Pure.pure, TM.pure_, ih]
  | .mk l (.Apply (.mk tl (.Builtin .Vector)) []), env, s => by
    simp [base_type_to_tstype, derr]
  | .mk l (.Apply (.mk tl (.Builtin .Vector)) (a :: b2 :: rest)), env, s => by
    simp [base_type_to_tstype, derr]
  | .mk l (.Apply (.mk tl (.Builtin .Bool)) targs), env, s => by
    rcases targs with _ | ⟨t1, ts⟩ <;> simp [base_type_to_tstype, Pure.pure, TM.pure_]
  | .mk l (.Apply (.mk tl (.Builtin .U8)) targs), env, s => by
    rcases targs with _ | ⟨t1, ts⟩ <;> simp [base_type_to_tstype, Pure.pure, TM.pure_]
  | .mk l (.Apply (.mk tl (.Builtin .U64)) targs), env, s => by
    rcases targs with _ | ⟨t1, ts⟩ <;> simp [base_type_to_tstype, Pure.pure, TM.pure_]
  | .mk l (.Apply (.mk tl (.Builtin .U128)) targs), env, s => by
    rcases targs with _ | ⟨t1, ts⟩ <;> simp [base_type_to_tstype, Pure.pure, TM.pure_]
  | .mk l (.Apply (.mk tl (.Builtin .Address)) targs), env, s => by
    rcases targs with _ | ⟨t1, ts⟩ <;> simp [base_type_to_tstype, Pure.pure, TM.pure_]
  | .mk l (.Apply (.mk tl (.Builtin .Signer)) targs), env, s => by
    rcases targs with _ | ⟨t1, ts⟩ <;> simp [base_type_to_tstype, Pure.pure, TM.pure_]
  | .mk l (.Apply (.mk tl (.ModuleType mi sn)) targs), env, s => by
    rcases targs with _ | ⟨t1, ts⟩ <;>
      simp [base_type_to_tstype, format_qualified_name_w mi sn.sym env s]
  | .mk l .UnresolvedError, env, s => by simp [base_type_to_tstype, derr]
  | .mk l .Unreachable, env, s => by simp [base_type_to_tstype, derr]

theorem single_type_to_tstype_w (ty : SingleType) (env : Env) (s : TState) :
    ((single_type_to_tstype ty env s).2.1).w = s.w := by
  rcases ty with ⟨l, v⟩
  rcases v with b | ⟨m, b⟩ <;> simp [single_type_to_tstype, base_type_to_tstype_w]

theorem write_parameters_loop_inv :
    ∀ (ps : List (String × SingleType)) (ss sf : Bool) (idx : Nat) (env : Env) (s : TState),
      s.w.cur = "" →
      ((write_parameters_loop ss sf ps idx env s).2.1).w.cur = ""
      ∧ ((write_parameters_loop ss sf ps idx env s).2.1).w.indent = s.w.indent
      ∧ ∃ t, ((write_parameters_loop ss sf ps idx env s).2.1).w.lines = s.w.lines ++ t := by
  intro ps
  induction ps with
  | nil =>
    intro ss sf idx env s hcur
    exact ⟨hcur, rfl, [], by simp [write_parameters_loop, Pure.pure, TM.pure_]⟩
  | cons p rest ih =>
    intro ss sf idx env s hcur
    obtain ⟨nm, ty⟩ := p
    by_cases h1 : (ss && is_type_signer ty) = true
    · rcases hrest : write_parameters_loop ss sf rest (idx + 1) env s with ⟨r2, s2, a2⟩
      obtain ⟨hc2, hi2, t2, hl2⟩ := ih ss sf (idx + 1) env s hcur
      rw [hrest] at hc2 hi2 hl2
      simp only [write_parameters_loop, h1, if_true, Bind.bind, TM.bind_, Pure.pure,
        TM.pure_, hrest]
      exact ⟨hc2, hi2, t2, hl2⟩
    · by_cases h2 : (sf && idx == 0) = true
      · rcases hrest : write_parameters_loop ss sf rest (idx + 1) env s with ⟨r2, s2, a2⟩
        obtain ⟨hc2, hi2, t2, hl2⟩ := ih ss sf (idx + 1) env s hcur
        rw [hrest] at hc2 hi2 hl2
        simp only [write_parameters_loop, h1, h2, Bool.false_eq_true, if_false, if_true,
          Bind.bind, TM.bind_, Pure.pure, TM.pure_, hrest]
        exact ⟨hc2, hi2, t2, hl2⟩
      · rcases hst : single_type_to_tstype ty env s with ⟨rt, st, a1⟩
        have hw := single_type_to_tstype_w ty env s
        rw [hst] at hw
        simp only [] at hw
        rcases rt with t | d | m
        · rcases hrest : write_parameters_loop ss sf rest (idx + 1) env
              ⟨st.w.writelnRaw (rename nm ++ ": " ++ t ++ ","), st.c⟩ with ⟨r2, s2, a2⟩
          obtain ⟨hc2, hi2, t2, hl2⟩ :=
            ih ss sf (idx + 1) env
              ⟨st.w.writelnRaw (rename nm ++ ": " ++ t ++ ","), st.c⟩
              (by simp [TsgenWriter.writelnRaw])
          rw [hrest] at hc2 hi2 hl2
          simp only [] at hc2 hi2 hl2
          simp only [write_parameters_loop, h1, h2, Bool.false_eq_true, if_false,
            Bind.bind, TM.bind_, Pure.pure, TM.pure_, hst, wWriteln, hrest]
          refine ⟨hc2, ?_, ?_⟩
          · rw [hi2]
            simp [TsgenWriter.writelnRaw, hw]
          · refine ⟨(pad st.w.indent ++ st.w.cur ++ (rename nm ++ ": " ++ t ++ ",")) :: t2, ?_⟩
            rw [hl2]
            simp [TsgenWriter.writelnRaw, hw]
        · simp only [write_parameters_loop, h1, h2, Bool.false_eq_true, if_false,
            Bind.bind, TM.bind_, Pure.pure, TM.pure_, hst]
          exact ⟨by rw [hw, hcur], by rw [hw], [], by rw [hw]; simp⟩
        · simp only [write_parameters_loop, h1, h2, Bool.false_eq_true, if_false,
            Bind.bind, TM.bind_, Pure.pure, TM.pure_, hst]
          exact ⟨by rw [hw, hcur], by rw [hw], [], by rw [hw]; simp⟩

theorem write_parameters_inv (sig : FunctionSignature) (ss sf : Bool) (env : Env)
    (s : TState) (hcur : s.w.cur = "") :
    ((write_parameters sig ss sf env s).2.1).w.cur = ""
    ∧ ((write_parameters sig ss sf env s).1.isOk = true →
        ((write_parameters sig ss sf env s).2.1).w.indent = s.w.indent)
    ∧ ∃ t, ((write_parameters sig ss sf env s).2.1).w.lines = s.w.lines ++ t := by
  rcases hloop : write_parameters_loop ss sf sig.parameters 0 env
      ⟨{ s.w with indent := s.w.indent + 2 }, s.c⟩ with ⟨r2, s2, a2⟩
  obtain ⟨hc2, hi2, t2, hl2⟩ :=
    write_parameters_loop_inv sig.parameters ss sf 0 env
      ⟨{ s.w with indent := s.w.indent + 2 }, s.c⟩ (by simpa using hcur)
  rw [hloop] at hc2 hi2 hl2
  rcases r2 with u | d | m <;>
    simp only [write_parameters, Bind.bind, TM.bind_, Pure.pure, TM.pure_, wIncIndent,
      wDecIndent, hloop, TransRes.isOk] <;>
    refine ⟨hc2, ?_, t2, by simpa using hl2⟩
  · intro _
    simp at hi2
    simp [hi2]
  · intro h
    exact absurd h (by simp)
  · intro h
    exact absurd h (by simp)

theorem pad_zero : pad 0 = "" := rfl

theorem pad_two : pad 2 = "  " := rfl

theorem bind_isOk_false {α β : Type} (x : TM α) (f : α → TM β) (env : Env) (s : TState)
    (h : ∀ (a : α) (s1 : TState), ((f a env s1).1).isOk = false) :
    ((TM.bind_ x f env s).1).isOk = false := by
  rcases hx : x env s with ⟨r, s1, l1⟩
  rcases r with a | d | m
  · rcases hf : f a env s1 with ⟨r2, s2, l2⟩
    have h1 := h a s1
    rw [hf] at h1
    simp only [] at h1
    simp [TM.bind_, hx, hf, h1]
  · simp [TM.bind_, hx, TransRes.isOk]
  · simp [TM.bind_, hx, TransRes.isOk]

/-- Helper: the companion emitter only succeeds when the published type is
a struct (module) type — every other published type falls into the
`Expect move_to to contain a struct type` diagnostic. -/
theorem write_query_function_struct_shape (fname : Name) (f : Function) (base : BaseType) (env : Env) (s : TState)
    (hok : (write_query_function fname f base env s).1.isOk = true) :
    ∃ bloc tloc mi sname targs,
      base = .mk bloc (.Apply (.mk tloc (.ModuleType mi sname)) targs) := by
  rcases base with ⟨bloc, bv⟩
  have hbad : ∀ (bv2 : BaseType_),
      (∀ (tloc : Loc) (mi : ModuleIdent) (sname : Name) (targs : List BaseType),
        bv2 ≠ .Apply (.mk tloc (.ModuleType mi sname)) targs) →
      ((write_query_function fname f (.mk bloc bv2) env s).1).isOk = false := by
    intro bv2 hne
    simp only [write_query_function]
    apply bind_isOk_false; intro a1 t1
    apply bind_isOk_false; intro a2 t2
    apply bind_isOk_false; intro a3 t3
    apply bind_isOk_false; intro a4 t4
    apply bind_isOk_false; intro a5 t5
    apply bind_isOk_false; intro a6 t6
    apply bind_isOk_false; intro a7 t7
    apply bind_isOk_false; intro a8 t8
    apply bind_isOk_false; intro a9 t9
    rcases bv2 with tp | ⟨⟨tloc, tnv⟩, targs⟩ | _ | _
    · simp [derr, TransRes.isOk, TypeName.value]
    · rcases tnv with bb | ⟨mi, sn⟩
      · simp [derr, TransRes.isOk, TypeName.value]
      · exact absurd rfl (hne tloc mi sn targs)
    · simp [derr, TransRes.isOk, TypeName.value]
    · simp [derr, TransRes.isOk, TypeName.value]
  rcases bv with tp | ⟨⟨tloc, tnv⟩, targs⟩ | _ | _
  · rw [hbad _ (by intro tloc mi sname targs h; cases h)] at hok
    cases hok
  · rcases tnv with bb | ⟨mi, sn⟩
    · rw [hbad _ (by intro tloc2 mi sname targs2 h; cases h)] at hok
      cases hok
    · exact ⟨bloc, tloc, mi, sn, targs, rfl⟩
  · rw [hbad _ (by intro tloc mi sname targs h; cases h)] at hok
    cases hok
  · rw [hbad _ (by intro tloc mi sname targs h; cases h)] at hok
    cases hok

/-- Helper: on success from a fresh line at top indentation, the companion
emitted by the query directive contains the payload-building call, the
simulated (dry-run) submission, and the `takeSimulationValue` decode of the
published struct type. -/
theorem write_query_function_emits (fname : Name) (f : Function) (bloc tloc : Loc) (mi : ModuleIdent)
    (sname : Name) (targs : List BaseType) (env : Env) (s : TState)
    (hcur : s.w.cur = "") (hind : s.w.indent = 0)
    (hok : (write_query_function fname f
        (.mk bloc (.Apply (.mk tloc (.ModuleType mi sname)) targs)) env s).1.isOk = true) :
    ("  const payload = buildPayload_" ++ fname.sym ++ "("
        ++ String.intercalate ", "
          (if !f.signature.type_parameters.isEmpty then
            (f.signature.parameters.filter (fun p => !is_type_signer p.2)).map (fun p => p.1)
              ++ ["$p"]
           else
            (f.signature.parameters.filter (fun p => !is_type_signer p.2)).map (fun p => p.1))
        ++ ");")
      ∈ (write_query_function fname f
          (.mk bloc (.Apply (.mk tloc (.ModuleType mi sname)) targs)) env s).2.1.w.lines
    ∧ ("  const output = await $.simulatePayloadTx(client, account, payload);"
      ∈ (write_query_function fname f
          (.mk bloc (.Apply (.mk tloc (.ModuleType mi sname)) targs)) env s).2.1.w.lines)
    ∧ ("  return $.takeSimulationValue<" ++ sname.sym ++ ">(output, outputTypeTag, repo)"
      ∈ (write_query_function fname f
          (.mk bloc (.Apply (.mk tloc (.ModuleType mi sname)) targs)) env s).2.1.w.lines) := by
  obtain ⟨⟨sl, sc, si⟩, sctx⟩ := s
  simp only [] at hcur hind
  subst hcur hind
  revert hok
  simp only [write_query_function, Bind.bind, TM.bind_, wWriteln, wIncIndent, wDecIndent,
    Pure.pure, TM.pure_, TsgenWriter.writelnRaw, TypeName.value, getCtx, liftTR,
    pad_zero, pad_two]
  set S1 : TState :=
    { w :=
        { lines :=
            sl ++ ["" ++ "" ++ ("export async function " ++ ("query_" ++ fname.sym) ++ "(")]
              ++ [pad (0 + 2) ++ "" ++ "client: AptosClient,"]
              ++ [pad (0 + 2) ++ "" ++ "account: AptosAccount,"]
              ++ [pad (0 + 2) ++ "" ++ "repo: AptosParserRepo,"],
          cur := "",
          indent := 0 + 2 },
      c := sctx } with hS1
  rcases hwp : write_parameters f.signature true false env S1 with ⟨rwp, swp, awp⟩
  obtain ⟨hwc, hwi, tw, hwl⟩ :=
    write_parameters_inv f.signature true false env S1 (by simp [hS1])
  rw [hwp] at hwc hwi hwl
  simp only [TransRes.isOk] at hwc hwi hwl
  rcases rwp with u | d | m
  · have hwi2 : swp.w.indent = S1.w.indent := hwi rfl
    have hwi3 : swp.w.indent = 0 + 2 := by rw [hwi2, hS1]
    rcases httr : base_type_to_typetag swp.c
        (BaseType.mk bloc (BaseType_.Apply (TypeName.mk tloc (TypeName_.ModuleType mi sname)) targs))
      with tag | d | m
    · intro _
      simp only []
      rw [httr]
      simp only []
      rw [hwi3, hwc]
      have hpl : pad (0 + 2 - 2 + 2) ++ "" ++
          ("const payload = buildPayload_" ++ fname.sym ++ "(" ++
            String.intercalate ", "
              (if (!f.signature.type_parameters.isEmpty) = true then
                List.map (fun p => p.1)
                  (List.filter (fun p => !is_type_signer p.2) f.signature.parameters) ++ ["$p"]
               else
                List.map (fun p => p.1)
                  (List.filter (fun p => !is_type_signer p.2) f.signature.parameters)) ++ ");")
          = "  const payload = buildPayload_" ++ fname.sym ++ "("
            ++ String.intercalate ", "
              (if (!f.signature.type_parameters.isEmpty) = true then
                List.map (fun p => p.1)
                  (List.filter (fun p => !is_type_signer p.2) f.signature.parameters) ++ ["$p"]
               else
                List.map (fun p => p.1)
                  (List.filter (fun p => !is_type_signer p.2) f.signature.parameters))
            ++ ");" := by
        rw [show (pad (0 + 2 - 2 + 2) ++ "" : String) = "  " from rfl]
        simp only [← String.append_assoc]
        rw [show ("  " : String) ++ "const payload = buildPayload_"
          = "  const payload = buildPayload_" from rfl]
      have hout : pad (0 + 2 - 2 + 2) ++ "" ++
          "const output = await $.simulatePayloadTx(client, account, payload);"
          = "  const output = await $.simulatePayloadTx(client, account, payload);" := rfl
      have hret : pad (0 + 2 - 2 + 2) ++ "" ++
          ("return $.takeSimulationValue<" ++ sname.sym ++ ">(output, outputTypeTag, repo)")
          = "  return $.takeSimulationValue<" ++ sname.sym
            ++ ">(output, outputTypeTag, repo)" := by
        rw [show (pad (0 + 2 - 2 + 2) ++ "" : String) = "  " from rfl]
        simp only [← String.append_assoc]
        rw [show ("  " : String) ++ "return $.takeSimulationValue<"
          = "  return $.takeSimulationValue<" from rfl]
      rw [hpl, hout, hret]
      refine ⟨?_, ?_, ?_⟩ <;>
        simp [List.mem_append, List.mem_cons]
    · intro h
      simp [httr, TransRes.isOk] at h
    · intro h
      simp [httr, TransRes.isOk] at h
  · intro h
    simp [TransRes.isOk] at h
  · intro h
    simp [TransRes.isOk] at h

/-- C1: the query directive succeeds exactly on an entry function whose
defined, non-empty body has a single `move_to` resource publish as its
final statement; on any other shape (non-entry, native, empty body, other
final statement) it fails with the uniform diagnostic, leaves the writer
untouched and records nothing.  On the qualifying shape the directive is
exactly the companion emission followed by the query record; the companion
emission itself succeeds only when the published type is a struct type, and
on success (from a fresh line at top indentation) its emitted lines build
the payload, submit it via `$.simulatePayloadTx` (a simulated, dry-run
transaction), and decode the simulation output as the struct type via
`$.takeSimulationValue` against the caller-supplied parser repository. -/
theorem C1_query_directive :
    (∀ (fname : Name) (f : Function) (env : Env) (s : TState),
        f.entry = false ∨ query_last_moveto f = none →
        (handle_function_query_directive fname f env s).1.isErr = true
        ∧ (handle_function_query_directive fname f env s).2.1 = s
        ∧ (handle_function_query_directive fname f env s).2.2 = [])
    ∧ (∀ (fname : Name) (f : Function) (env : Env) (s : TState) (base : BaseType),
        f.entry = true → query_last_moveto f = some base →
        handle_function_query_directive fname f env s
          = (do
              write_query_function fname f base
              let mi ← currentModuleM
              emitArtifact (.queryRecord mi fname f)) env s)
    ∧ (∀ (fname : Name) (f : Function) (base : BaseType) (env : Env) (s : TState),
        (write_query_function fname f base env s).1.isOk = true →
        ∃ bloc tloc mi sname targs,
          base = .mk bloc (.Apply (.mk tloc (.ModuleType mi sname)) targs))
    ∧ (∀ (fname : Name) (f : Function) (bloc tloc : Loc) (mi : ModuleIdent)
        (sname : Name) (targs : List BaseType) (env : Env) (s : TState),
        s.w.cur = "" → s.w.indent = 0 →
        (write_query_function fname f
            (.mk bloc (.Apply (.mk tloc (.ModuleType mi sname)) targs)) env s).1.isOk
          = true →
        ("  const payload = buildPayload_" ++ fname.sym ++ "("
            ++ String.intercalate ", "
              (if !f.signature.type_parameters.isEmpty then
                (f.signature.parameters.filter (fun p => !is_type_signer p.2)).map
                    (fun p => p.1) ++ ["$p"]
               else
                (f.signature.parameters.filter (fun p => !is_type_signer p.2)).map
                  (fun p => p.1))
            ++ ");")
          ∈ (write_query_function fname f
              (.mk bloc (.Apply (.mk tloc (.ModuleType mi sname)) targs)) env s).2.1.w.lines
        ∧ ("  const output = await $.simulatePayloadTx(client, account, payload);"
          ∈ (write_query_function fname f
              (.mk bloc (.Apply (.mk tloc (.ModuleType mi sname)) targs)) env s).2.1.w.lines)
        ∧ ("  return $.takeSimulationValue<" ++ sname.sym ++ ">(output, outputTypeTag, repo)"
          ∈ (write_query_function fname f
              (.mk bloc (.Apply (.mk tloc (.ModuleType mi sname)) targs)) env s).2.1.w.lines)) := by
  refine ⟨?_, ?_,
    fun fname f base env s hok =>
      write_query_function_struct_shape fname f base env s hok,
    fun fname f bloc tloc mi sname targs env s h1 h2 h3 =>
      write_query_function_emits fname f bloc tloc mi sname targs env s h1 h2 h3⟩
  · intro fname f env s h
    cases hf : f.entry with
    | false =>
      simp [handle_function_query_directive, hf, derr, TransRes.isErr]
    | true =>
      have hnone : query_last_moveto f = none := by
        rcases h with h | h
        · rw [hf] at h; cases h
        · exact h
      rcases hb : f.body.value with _ | ⟨locals, body⟩
      · simp [handle_function_query_directive, hf, hb, derr, TransRes.isErr]
      · rcases hl : body.getLast? with _ | ⟨⟨lloc, sv⟩⟩
        · simp [handle_function_query_directive, hf, hb, hl, derr, TransRes.isErr]
        · rcases sv with cmd | ⟨cond, ib, eb⟩ | ⟨pre, cond, blk⟩ | ⟨hbk, blk⟩
          · obtain ⟨cloc, cv⟩ := cmd
            rcases cv with ⟨lvs, rhs⟩ | ⟨lhs, rhs⟩ | e | ⟨fu, exp⟩ | _ | _ | ⟨n, e⟩ | lbl
            case Return =>
              obtain ⟨eloc, ev⟩ := exp
              rcases ev with t | ⟨bf, t⟩ | t | t | t
              case Builtin =>
                obtain ⟨bfl, bfv⟩ := bf
                rcases bfv with b2 | onm
                · simp [query_last_moveto, hb, hl] at hnone
                · simp [handle_function_query_directive, hf, hb, hl, derr, TransRes.isErr]
              all_goals
                simp [handle_function_query_directive, hf, hb, hl, derr, TransRes.isErr]
            all_goals
              simp [handle_function_query_directive, hf, hb, hl, derr, TransRes.isErr]
          all_goals
            simp [handle_function_query_directive, hf, hb, hl, derr, TransRes.isErr]
  · intro fname f env s base hf hsome
    rcases hb : f.body.value with _ | ⟨locals, body⟩
    · simp [query_last_moveto, hb] at hsome
    · rcases hl : body.getLast? with _ | ⟨⟨lloc, sv⟩⟩
      · simp [query_last_moveto, hb, hl] at hsome
      · rcases sv with cmd | ⟨cond, ib, eb⟩ | ⟨pre, cond, blk⟩ | ⟨hbk, blk⟩
        · obtain ⟨cloc, cv⟩ := cmd
          rcases cv with ⟨lvs, rhs⟩ | ⟨lhs, rhs⟩ | e | ⟨fu, exp⟩ | _ | _ | ⟨n, e⟩ | lbl
          case Return =>
            obtain ⟨eloc, ev⟩ := exp
            rcases ev with t | ⟨bf, t⟩ | t | t | t
            case Builtin =>
              obtain ⟨bfl, bfv⟩ := bf
              rcases bfv with b2 | onm
              · simp only [query_last_moveto, hb, hl] at hsome
                simp only [Option.some.injEq] at hsome
                subst hsome
                simp [handle_function_query_directive, hf, hb, hl]
              · simp [query_last_moveto, hb, hl] at hsome
            all_goals simp [query_last_moveto, hb, hl] at hsome
          all_goals simp [query_last_moveto, hb, hl] at hsome
        all_goals simp [query_last_moveto, hb, hl] at hsome

/-- C1 witness: the qualifying shape (entry function whose body ends in
`move_to<S>`) replayed as the companion emission plus query record, and the
simulated-submission line emitted by the successful companion run on the
concrete example. -/
theorem C1_witness :
    (handle_function_query_directive ⟨0, "f"⟩ exFuncC1 exEnv exState
        = (do
            write_query_function ⟨0, "f"⟩ exFuncC1 exStructBaseC1
            let mi ← currentModuleM
            emitArtifact (.queryRecord mi ⟨0, "f"⟩ exFuncC1)) exEnv exState)
    ∧ ("  const output = await $.simulatePayloadTx(client, account, payload);"
      ∈ (write_query_function ⟨0, "f"⟩ exFuncC1
          (.mk 0 (.Apply (.mk 0 (.ModuleType exMident ⟨0, "S"⟩)) [])) exEnv exState).2.1.w.lines) :=
  ⟨C1_query_directive.2.1 ⟨0, "f"⟩ exFuncC1 exEnv exState exStructBaseC1 rfl rfl,
   (C1_query_directive.2.2.2 ⟨0, "f"⟩ exFuncC1 0 0 exMident ⟨0, "S"⟩ [] exEnv exState
      rfl rfl rfl).2.1⟩

end MoveToTs